import Mathlib

/-!
Verification of the fractal synchronization request generator
(`src/sw/fractal_sync_req_gen.c` / `.h`).

Shallow embedding conventions:
* C `unsigned int` values are modelled as `Nat`.  Every arithmetic
  operation performed by the program stays far below `2 ^ 32`
  (aggregates receive at most `__FSYNC_N_LVL__ = 4` shift-or steps from
  `0`, the hop counter starts at `4` and is decremented at most four
  times, thresholds start at `2`), so no wrap-around is reachable and
  plain `Nat` arithmetic is faithful.
* The caller's CU array is a `List FsyncCu`.  The multi-CU engine works,
  as in C, on a heap clone addressed through pointers; we model the
  clone as a store `Nat → FsyncCu` (pointer = array index) and the
  pointer scratch buffers (`l_cus`, `h_cus`, ...) as lists of indices.
  A pointer write becomes a pointwise store update.  All index lists
  reachable from `fsync_gen_reqs` are duplicate-free (they start from
  `List.range` and are only filtered), so updating "every index in the
  list" agrees with the C loop over distinct pointers.
* The C `while` loop of the two-CU path and the recursion of
  `fsync_partition_subtree` terminate because thresholds halve; we give
  both a fuel parameter that is structurally decreasing and instantiate
  it at the call sites with a bound that strictly dominates the real
  depth (the threshold chain `2, 1, 0` gives depth `≤ 4` for the engine
  and `≤ 2` rounds per axis for the loop).  Lemmas
  `fsync_axis_steps_adequate` and `fsync_hops_loop_eq` show the loop's
  value is fuel-independent once the fuel exceeds the threshold sum.
* `malloc` failure is not modelled (the claims under study explicitly
  set allocation failure aside); `free` is a no-op.
-/

namespace FractalSync

/-- `typedef enum {h_fs_dir, v_fs_dir} fsync_dir;` -/
inductive FsyncDir where
  | h_fs_dir
  | v_fs_dir
deriving DecidableEq, Repr

/-- `typedef enum {null_fs_node, h_fs_node, v_fs_node, hv_fs_node} fsync_node;` -/
inductive FsyncNode where
  | null_fs_node
  | h_fs_node
  | v_fs_node
  | hv_fs_node
deriving DecidableEq, Repr

/-- `struct fsync_req` — aggregate bitmask, request id, node kind. -/
structure FsyncReq where
  fs_req_aggr : Nat
  fs_req_id : Nat
  req_node : FsyncNode
deriving DecidableEq, Repr

/-- `struct fsync_cu` — CU identity, grid position and owned request. -/
structure FsyncCu where
  cu_id : Nat
  y_pos : Nat
  x_pos : Nat
  fsync_req : FsyncReq
deriving DecidableEq, Repr

/-- `#define __FSYNC_N_CU_X__ (4)` -/
def __FSYNC_N_CU_X__ : Nat := 4

/-- `#define __FSYNC_N_CU_Y__ (4)` -/
def __FSYNC_N_CU_Y__ : Nat := 4

/-- `#define __FSYNC_N_LVL__ (4)` -/
def __FSYNC_N_LVL__ : Nat := 4

/-- `#define __FSYNC_DEFAULT_TH__ (__FSYNC_N_CU_X__/2)` -/
def __FSYNC_DEFAULT_TH__ : Nat := __FSYNC_N_CU_X__ / 2

/-- `#define abs_diff(x, y) (((x) > (y)) ? ((x) - (y)) : ((y) - (x)))` -/
def abs_diff (x y : Nat) : Nat := if x > y then x - y else y - x

/-- The request reset value written by `fsync_init_reqs`:
`aggregate = 0, id = 0, node = null_fs_node`. -/
def default_req : FsyncReq := ⟨0, 0, FsyncNode.null_fs_node⟩

/-- Out-of-range placeholder used by `List.getD`; never produced by the
program for an index inside the array. -/
def default_fsync_cu : FsyncCu := ⟨0, 0, 0, default_req⟩

/-- `fsync_nbr_node` (fractal_sync_req_gen.c, lines 24-26):
`return (pos1 < pos2) ? pos1 & 1 : pos2 & 1;` — parity bit of the
smaller position (of `pos2` when equal). -/
def fsync_nbr_node (pos1 pos2 : Nat) : Bool :=
  if pos1 < pos2 then decide (pos1 % 2 = 1) else decide (pos2 % 2 = 1)

/-- `fsync_same_subtree` (lines 28-31): both positions on the same side
of `threshold`. -/
def fsync_same_subtree (pos1 pos2 threshold : Nat) : Bool :=
  (decide (pos1 < threshold) && decide (pos2 < threshold)) ||
  (decide (threshold ≤ pos1) && decide (threshold ≤ pos2))

/-- `fsync_update_pos` (lines 33-36): renormalize a position into the
current half (`*pos = (*pos < threshold) ? *pos : *pos - threshold`) and
return the halved threshold.  First component: new position; second:
`threshold / 2`. -/
def fsync_update_pos (pos threshold : Nat) : Nat × Nat :=
  (if pos < threshold then pos else pos - threshold, threshold / 2)

/-- The `while (!done)` loop of `fsync_gen_reqs` (lines 210-222), made
structural with a fuel argument.  Each round first tries one halving
step on the x axis, then one on the y axis; a round in which either
axis cannot step (its coordinates diverge at the current threshold, or
the threshold is zero) is the last round, but the other axis still
performs its step in that round if able.  Returns the final hop
counter.  A recursive round requires both thresholds positive and
halves both, so fuel `x_th + y_th + 1` can never run out (see
`fsync_hops_loop_eq`). -/
def fsync_hops_loop : Nat → Nat → Nat → Nat → Nat → Nat → Nat → Nat → Nat
  | 0, _, _, _, _, _, _, hops => hops
  | fuel + 1, x_p0, x_p1, x_th, y_p0, y_p1, y_th, hops =>
    if fsync_same_subtree x_p0 x_p1 x_th && decide (0 < x_th) then
      if fsync_same_subtree y_p0 y_p1 y_th && decide (0 < y_th) then
        fsync_hops_loop fuel
          (fsync_update_pos x_p0 x_th).1 (fsync_update_pos x_p1 x_th).1 (x_th / 2)
          (fsync_update_pos y_p0 y_th).1 (fsync_update_pos y_p1 y_th).1 (y_th / 2)
          (hops - 1 - 1)
      else hops - 1
    else
      if fsync_same_subtree y_p0 y_p1 y_th && decide (0 < y_th) then hops - 1
      else hops

/-- Modelled from the spec (§4.3): one axis's halving walk taken
*independently* of the other axis — "independently walk each axis's
halving sequence ... stop independently per axis once the coordinates
diverge into different halves or the threshold reaches zero".  Counts
the number of halving steps the axis can take.  Fueled; `th + 1` fuel
is always enough (`fsync_axis_steps_adequate`). -/
def fsync_axis_steps : Nat → Nat → Nat → Nat → Nat
  | 0, _, _, _ => 0
  | fuel + 1, p0, p1, th =>
    if fsync_same_subtree p0 p1 th && decide (0 < th) then
      fsync_axis_steps fuel (fsync_update_pos p0 th).1 (fsync_update_pos p1 th).1 (th / 2) + 1
    else 0

/-- Modelled from the spec (§4.3): the combined hop counter as the spec's
words describe it — start from `__FSYNC_N_LVL__` and subtract the number
of *independent* halving steps of each axis. -/
def spec_indep_hops (x0 x1 y0 y1 : Nat) : Nat :=
  __FSYNC_N_LVL__ -
    (fsync_axis_steps (__FSYNC_N_CU_X__ / 2 + 1) x0 x1 (__FSYNC_N_CU_X__ / 2) +
     fsync_axis_steps (__FSYNC_N_CU_Y__ / 2 + 1) y0 y1 (__FSYNC_N_CU_Y__ / 2))

/-- Lines 176-185 of `fsync_gen_reqs`: the direction chosen for a pair —
horizontal when `x_dist > y_dist`, the caller's default on a tie,
vertical otherwise. -/
def fsync_two_cu_dir (x_dist y_dist : Nat) (default_dir : FsyncDir) : FsyncDir :=
  if x_dist > y_dist then FsyncDir.h_fs_dir
  else if x_dist = y_dist then default_dir
  else FsyncDir.v_fs_dir

/-- Lines 176-185 of `fsync_gen_reqs`: the node kind written to both CUs'
requests when classifying a pair (before the distance-1 / far-pair
split). -/
def fsync_two_cu_node (x_dist y_dist : Nat) : FsyncNode :=
  if x_dist > y_dist then FsyncNode.h_fs_node
  else if x_dist = y_dist then FsyncNode.hv_fs_node
  else FsyncNode.v_fs_node

/-- The body of the loop of `fsync_update_cus_req` (lines 66-75) for one
CU: append one bit to the aggregate (`<<= 1` then `|=` the activity
bit — the low bit of the shifted value is clear, so this is
`2 * aggr + bit`), and, only if the node field is still unset AND the
node is active, record the node kind and the direction-keyed id. -/
def fsync_update_cu_req (dir : FsyncDir) (node : FsyncNode) (node_active : Bool)
    (c : FsyncCu) : FsyncCu :=
  let aggr := 2 * c.fsync_req.fs_req_aggr + (if node_active then 1 else 0)
  if c.fsync_req.req_node = FsyncNode.null_fs_node ∧ node_active = true then
    { c with fsync_req := ⟨aggr, if dir = FsyncDir.h_fs_dir then 0 else 1, node⟩ }
  else
    { c with fsync_req := ⟨aggr, c.fsync_req.fs_req_id, c.fsync_req.req_node⟩ }

/-- `fsync_update_cus_req` (lines 66-75) on the store: apply the per-CU
update to every index in the scratch pointer list. -/
def fsync_update_cus_req (idxs : List Nat) (dir : FsyncDir) (node : FsyncNode)
    (node_active : Bool) (st : Nat → FsyncCu) : Nat → FsyncCu :=
  fun i => if i ∈ idxs then fsync_update_cu_req dir node node_active (st i) else st i

/-- `fsync_update_h_poss` (lines 54-58): renormalize the x position of
every CU in the list (the returned `threshold / 2` is used inline at the
call sites). -/
def fsync_update_h_poss (idxs : List Nat) (threshold : Nat)
    (st : Nat → FsyncCu) : Nat → FsyncCu :=
  fun i =>
    if i ∈ idxs then { st i with x_pos := (fsync_update_pos (st i).x_pos threshold).1 }
    else st i

/-- `fsync_update_v_poss` (lines 60-64): renormalize the y position of
every CU in the list. -/
def fsync_update_v_poss (idxs : List Nat) (threshold : Nat)
    (st : Nat → FsyncCu) : Nat → FsyncCu :=
  fun i =>
    if i ∈ idxs then { st i with y_pos := (fsync_update_pos (st i).y_pos threshold).1 }
    else st i

/-- `fsync_partition_h_cus` (lines 38-44): split the pointer list by
`x_pos < threshold`; the Bool is `(*num_l_cus > 0) && (*num_h_cus > 0)`.
Components: low list, high list, active flag. -/
def fsync_partition_h_cus (idxs : List Nat) (threshold : Nat)
    (st : Nat → FsyncCu) : List Nat × List Nat × Bool :=
  let l := idxs.filter (fun i => decide ((st i).x_pos < threshold))
  let h := idxs.filter (fun i => ! decide ((st i).x_pos < threshold))
  (l, h, decide (0 < l.length) && decide (0 < h.length))

/-- `fsync_partition_v_cus` (lines 46-52): split by `y_pos < threshold`. -/
def fsync_partition_v_cus (idxs : List Nat) (threshold : Nat)
    (st : Nat → FsyncCu) : List Nat × List Nat × Bool :=
  let l := idxs.filter (fun i => decide ((st i).y_pos < threshold))
  let h := idxs.filter (fun i => ! decide ((st i).y_pos < threshold))
  (l, h, decide (0 < l.length) && decide (0 < h.length))

/-- The common tail of every branch of `fsync_partition_subtree`
(lines 98-122 and 140-146): record a contribution on the low and high
subsets, renormalize the high subset's coordinate on the partition axis
`paxis`, recurse into both subsets (low first, then high — the sequencing
is faithful to C; the subsets address disjoint pointers), and OR the
activity flags.  `recf` is the engine at the next fuel level. -/
def fsync_branch_body
    (recf : (Nat → FsyncCu) → List Nat → FsyncDir → Nat → FsyncNode → Bool × (Nat → FsyncCu))
    (st : Nat → FsyncCu) (l h : List Nat) (node_active : Bool)
    (dir : FsyncDir) (node : FsyncNode) (paxis : FsyncDir) (threshold : Nat)
    (sub_dir : FsyncDir) (sub_th : Nat) (sub_node : FsyncNode) : Bool × (Nat → FsyncCu) :=
  let st1 := fsync_update_cus_req l dir node node_active st
  let st2 := fsync_update_cus_req h dir node node_active st1
  let st3 := if paxis = FsyncDir.h_fs_dir then fsync_update_h_poss h threshold st2
             else fsync_update_v_poss h threshold st2
  let rl := recf st3 l sub_dir sub_th sub_node
  let rh := recf rl.2 h sub_dir sub_th sub_node
  (node_active || rl.1 || rh.1, rh.2)

/-- One unfolding of `fsync_partition_subtree` (lines 77-153).  At a
`hv_fs_node` the subset is partitioned by both axes; `use_v` selects
which partition drives recording and recursion, merging C's duplicated
branch bodies: when the node is jointly active or neither axis splits,
the traversal direction decides (lines 97-110); otherwise the single
splitting axis decides (lines 111-123).  The chosen route records with
the current `dir`/`node`, renormalizes the used high half, and recurses
at the same threshold into single-axis nodes.  At a single-axis node
(lines 131-152) the subset is partitioned by the traversal direction's
own axis, recorded, the high half renormalized, and both halves
recursed as `hv_fs_node` at `threshold / 2`. -/
def fsync_partition_subtree_body
    (recf : (Nat → FsyncCu) → List Nat → FsyncDir → Nat → FsyncNode → Bool × (Nat → FsyncCu))
    (st : Nat → FsyncCu) (idxs : List Nat) (dir : FsyncDir) (threshold : Nat)
    (node : FsyncNode) : Bool × (Nat → FsyncCu) :=
  if threshold < 1 then (false, st)
  else
    match node with
    | FsyncNode.hv_fs_node =>
      let ph := fsync_partition_h_cus idxs threshold st
      let pv := fsync_partition_v_cus idxs threshold st
      let h_node_active := ph.2.2
      let v_node_active := pv.2.2
      let node_active := h_node_active && v_node_active
      let use_v : Bool :=
        if node_active || (!h_node_active && !v_node_active) then
          decide (dir = FsyncDir.h_fs_dir)
        else h_node_active
      if use_v then
        fsync_branch_body recf st pv.1 pv.2.1 node_active dir FsyncNode.hv_fs_node
          FsyncDir.v_fs_dir threshold FsyncDir.h_fs_dir threshold FsyncNode.h_fs_node
      else
        fsync_branch_body recf st ph.1 ph.2.1 node_active dir FsyncNode.hv_fs_node
          FsyncDir.h_fs_dir threshold FsyncDir.v_fs_dir threshold FsyncNode.v_fs_node
    | _ =>
      if dir = FsyncDir.h_fs_dir then
        let p := fsync_partition_h_cus idxs threshold st
        fsync_branch_body recf st p.1 p.2.1 p.2.2 dir node
          FsyncDir.h_fs_dir threshold dir (threshold / 2) FsyncNode.hv_fs_node
      else
        let p := fsync_partition_v_cus idxs threshold st
        fsync_branch_body recf st p.1 p.2.1 p.2.2 dir node
          FsyncDir.v_fs_dir threshold dir (threshold / 2) FsyncNode.hv_fs_node

/-- `fsync_partition_subtree` (lines 77-153), fueled.  Each recursion
level consumes one fuel unit; the threshold/node measure
`2 * threshold + (node = hv)` strictly decreases across levels, so the
fuel passed by `fsync_gen_reqs` (`2 * __FSYNC_DEFAULT_TH__ + 2`)
strictly dominates the recursion depth and the fuel-0 branch is
unreachable from the entry point. -/
def fsync_partition_subtree : Nat → (Nat → FsyncCu) → List Nat → FsyncDir → Nat → FsyncNode → Bool × (Nat → FsyncCu)
  | 0, st, _, _, _, _ => (false, st)
  | fuel + 1, st, idxs, dir, threshold, node =>
    fsync_partition_subtree_body (fsync_partition_subtree fuel) st idxs dir threshold node

/-- `fsync_init_reqs` (lines 155-161) for one CU. -/
def fsync_init_req (c : FsyncCu) : FsyncCu := { c with fsync_req := default_req }

/-- `fsync_init_reqs` (lines 155-161): reset every request. -/
def fsync_init_reqs (cus : List FsyncCu) : List FsyncCu := cus.map fsync_init_req

/-- The `num_cus == 2` path of `fsync_gen_reqs` (lines 168-237), acting
on the two (already reset) CUs.  Returns the success flag and the two
updated CUs.  Note the C code writes `req_node` (lines 176-185) *before*
testing the distance, so a far pair that fails the hop test returns
`false` with the node fields already set. -/
def fsync_gen_two (a b : FsyncCu) (default_dir : FsyncDir) : Bool × FsyncCu × FsyncCu :=
  let x_dist := abs_diff a.x_pos b.x_pos
  let y_dist := abs_diff a.y_pos b.y_pos
  let dist := x_dist + y_dist
  if dist = 0 then (false, a, b)
  else
    let dir := fsync_two_cu_dir x_dist y_dist default_dir
    let nd := fsync_two_cu_node x_dist y_dist
    let a1 := { a with fsync_req := { a.fsync_req with req_node := nd } }
    let b1 := { b with fsync_req := { b.fsync_req with req_node := nd } }
    if dist = 1 then
      let rid : Nat :=
        if dir = FsyncDir.h_fs_dir then
          if fsync_nbr_node a.x_pos b.x_pos then 2 else 0
        else
          if fsync_nbr_node a.y_pos b.y_pos then 3 else 1
      (true,
       { a1 with fsync_req := { a1.fsync_req with fs_req_aggr := 1, fs_req_id := rid } },
       { b1 with fsync_req := { b1.fsync_req with fs_req_aggr := 1, fs_req_id := rid } })
    else
      let hops := fsync_hops_loop
        (__FSYNC_N_CU_X__ / 2 + __FSYNC_N_CU_Y__ / 2 + 1)
        a.x_pos b.x_pos (__FSYNC_N_CU_X__ / 2)
        a.y_pos b.y_pos (__FSYNC_N_CU_Y__ / 2)
        __FSYNC_N_LVL__
      if 1 < hops then
        let aggr := 1 <<< (hops - 1)
        if dir = FsyncDir.h_fs_dir then
          (true,
           { a1 with fsync_req := ⟨aggr, 0, FsyncNode.h_fs_node⟩ },
           { b1 with fsync_req := ⟨aggr, 0, FsyncNode.h_fs_node⟩ })
        else
          (true,
           { a1 with fsync_req := ⟨aggr, 1, FsyncNode.v_fs_node⟩ },
           { b1 with fsync_req := ⟨aggr, 1, FsyncNode.v_fs_node⟩ })
      else (false, a1, b1)

/-- Lines 249-253 of `fsync_gen_reqs`: copy the request fields computed
on the clone back onto the caller's CUs, position by position (`k` is
the index of the head of the remaining list).  Note the C code performs
this copy-back unconditionally, also when the engine reported failure. -/
def fsync_copy_reqs : List FsyncCu → (Nat → FsyncCu) → Nat → List FsyncCu
  | [], _, _ => []
  | c :: cs, st, k => { c with fsync_req := (st k).fsync_req } :: fsync_copy_reqs cs st (k + 1)

/-- `fsync_gen_reqs` (lines 163-259): reset all requests; fail on fewer
than two CUs; run the two-CU fast path on exactly two; otherwise clone
the array into a store, run the partition engine from the root
(`__FSYNC_DEFAULT_TH__`, `hv_fs_node`), and copy the request fields
back.  Returns the success flag and the caller's array after the call. -/
def fsync_gen_reqs (cus : List FsyncCu) (default_dir : FsyncDir) : Bool × List FsyncCu :=
  let cus0 := fsync_init_reqs cus
  if cus0.length < 2 then (false, cus0)
  else if cus0.length = 2 then
    let r := fsync_gen_two (cus0.getD 0 default_fsync_cu) (cus0.getD 1 default_fsync_cu) default_dir
    (r.1, [r.2.1, r.2.2])
  else
    let st : Nat → FsyncCu := fun i => cus0.getD i default_fsync_cu
    let r := fsync_partition_subtree (2 * __FSYNC_DEFAULT_TH__ + 2) st
      (List.range cus0.length) default_dir __FSYNC_DEFAULT_TH__ FsyncNode.hv_fs_node
    (r.1, fsync_copy_reqs cus0 r.2 0)

/-- Number of set bits, by fueled halving (`popCountAux n n` is exact:
the argument shrinks at least as fast as the fuel). -/
def popCountAux : Nat → Nat → Nat
  | 0, _ => 0
  | fuel + 1, n => if n = 0 then 0 else popCountAux fuel (n / 2) + n % 2

/-- Number of set bits of a natural number. -/
def popCount (n : Nat) : Nat := popCountAux n n

/-- The maximal number of recursion levels (hence aggregate bits) a CU
can cross below a `fsync_partition_subtree` call with the given fuel,
threshold and node kind; mirrors the engine's level structure. -/
def fsync_lvl_bound : Nat → Nat → FsyncNode → Nat
  | 0, _, _ => 0
  | fuel + 1, threshold, node =>
    if threshold < 1 then 0
    else if node = FsyncNode.hv_fs_node then
      1 + fsync_lvl_bound fuel threshold FsyncNode.h_fs_node
    else 1 + fsync_lvl_bound fuel (threshold / 2) FsyncNode.hv_fs_node

/-! ## Basic lemmas about the store updates and partitions -/

theorem fsync_update_cus_req_mem {idxs : List Nat} {i : Nat} (dir : FsyncDir)
    (node : FsyncNode) (act : Bool) (st : Nat → FsyncCu) (h : i ∈ idxs) :
    fsync_update_cus_req idxs dir node act st i = fsync_update_cu_req dir node act (st i) := by
  simp [fsync_update_cus_req, h]

theorem fsync_update_cus_req_not_mem {idxs : List Nat} {i : Nat} (dir : FsyncDir)
    (node : FsyncNode) (act : Bool) (st : Nat → FsyncCu) (h : i ∉ idxs) :
    fsync_update_cus_req idxs dir node act st i = st i := by
  simp [fsync_update_cus_req, h]

theorem fsync_update_h_poss_not_mem {idxs : List Nat} {i : Nat} (th : Nat)
    (st : Nat → FsyncCu) (h : i ∉ idxs) :
    fsync_update_h_poss idxs th st i = st i := by
  simp [fsync_update_h_poss, h]

theorem fsync_update_v_poss_not_mem {idxs : List Nat} {i : Nat} (th : Nat)
    (st : Nat → FsyncCu) (h : i ∉ idxs) :
    fsync_update_v_poss idxs th st i = st i := by
  simp [fsync_update_v_poss, h]

/-- Position renormalization never touches the request record. -/
theorem fsync_update_h_poss_req (idxs : List Nat) (th : Nat) (st : Nat → FsyncCu)
    (i : Nat) : (fsync_update_h_poss idxs th st i).fsync_req = (st i).fsync_req := by
  unfold fsync_update_h_poss; split <;> rfl

theorem fsync_update_v_poss_req (idxs : List Nat) (th : Nat) (st : Nat → FsyncCu)
    (i : Nat) : (fsync_update_v_poss idxs th st i).fsync_req = (st i).fsync_req := by
  unfold fsync_update_v_poss; split <;> rfl

/-- Recording a contribution never touches identity or position. -/
theorem fsync_update_cu_req_cu_id (dir : FsyncDir) (node : FsyncNode) (act : Bool)
    (c : FsyncCu) : (fsync_update_cu_req dir node act c).cu_id = c.cu_id := by
  unfold fsync_update_cu_req; dsimp only; split <;> rfl

theorem fsync_update_cu_req_x_pos (dir : FsyncDir) (node : FsyncNode) (act : Bool)
    (c : FsyncCu) : (fsync_update_cu_req dir node act c).x_pos = c.x_pos := by
  unfold fsync_update_cu_req; dsimp only; split <;> rfl

theorem fsync_update_cu_req_y_pos (dir : FsyncDir) (node : FsyncNode) (act : Bool)
    (c : FsyncCu) : (fsync_update_cu_req dir node act c).y_pos = c.y_pos := by
  unfold fsync_update_cu_req; dsimp only; split <;> rfl

theorem fsync_update_cus_req_x_pos (idxs : List Nat) (dir : FsyncDir) (node : FsyncNode)
    (act : Bool) (st : Nat → FsyncCu) (i : Nat) :
    (fsync_update_cus_req idxs dir node act st i).x_pos = (st i).x_pos := by
  unfold fsync_update_cus_req; split
  · exact fsync_update_cu_req_x_pos _ _ _ _
  · rfl

theorem fsync_update_cus_req_y_pos (idxs : List Nat) (dir : FsyncDir) (node : FsyncNode)
    (act : Bool) (st : Nat → FsyncCu) (i : Nat) :
    (fsync_update_cus_req idxs dir node act st i).y_pos = (st i).y_pos := by
  unfold fsync_update_cus_req; split
  · exact fsync_update_cu_req_y_pos _ _ _ _
  · rfl

/-- An inactive recording only shifts the aggregate (appending a `0` bit)
and leaves id and node alone. -/
theorem fsync_update_cu_req_inactive (dir : FsyncDir) (node : FsyncNode) (c : FsyncCu) :
    (fsync_update_cu_req dir node false c).fsync_req =
      ⟨2 * c.fsync_req.fs_req_aggr, c.fsync_req.fs_req_id, c.fsync_req.req_node⟩ := by
  unfold fsync_update_cu_req; dsimp only
  rw [if_neg (by simp)]
  simp

/-- A non-`null` node field survives any recording step. -/
theorem fsync_update_cu_req_node_pres (dir : FsyncDir) (node : FsyncNode) (act : Bool)
    {c : FsyncCu} (h : c.fsync_req.req_node ≠ FsyncNode.null_fs_node) :
    (fsync_update_cu_req dir node act c).fsync_req.req_node = c.fsync_req.req_node := by
  unfold fsync_update_cu_req; dsimp only
  rw [if_neg (by rintro ⟨h1, _⟩; exact h h1)]

theorem fsync_update_cus_req_node_pres (idxs : List Nat) (dir : FsyncDir)
    (node : FsyncNode) (act : Bool) (st : Nat → FsyncCu) {i : Nat}
    (h : (st i).fsync_req.req_node ≠ FsyncNode.null_fs_node) :
    (fsync_update_cus_req idxs dir node act st i).fsync_req.req_node =
      (st i).fsync_req.req_node := by
  unfold fsync_update_cus_req; split
  · exact fsync_update_cu_req_node_pres _ _ _ h
  · rfl

theorem mem_fsync_partition_h_l {idxs : List Nat} {th : Nat} {st : Nat → FsyncCu}
    {i : Nat} : i ∈ (fsync_partition_h_cus idxs th st).1 ↔
      i ∈ idxs ∧ (st i).x_pos < th := by
  simp [fsync_partition_h_cus, List.mem_filter]

theorem mem_fsync_partition_h_h {idxs : List Nat} {th : Nat} {st : Nat → FsyncCu}
    {i : Nat} : i ∈ (fsync_partition_h_cus idxs th st).2.1 ↔
      i ∈ idxs ∧ ¬(st i).x_pos < th := by
  simp [fsync_partition_h_cus, List.mem_filter]

theorem mem_fsync_partition_v_l {idxs : List Nat} {th : Nat} {st : Nat → FsyncCu}
    {i : Nat} : i ∈ (fsync_partition_v_cus idxs th st).1 ↔
      i ∈ idxs ∧ (st i).y_pos < th := by
  simp [fsync_partition_v_cus, List.mem_filter]

theorem mem_fsync_partition_v_h {idxs : List Nat} {th : Nat} {st : Nat → FsyncCu}
    {i : Nat} : i ∈ (fsync_partition_v_cus idxs th st).2.1 ↔
      i ∈ idxs ∧ ¬(st i).y_pos < th := by
  simp [fsync_partition_v_cus, List.mem_filter]

/-! ## popCount lemmas -/

theorem popCountAux_zero (f : Nat) : popCountAux f 0 = 0 := by
  cases f <;> simp [popCountAux]

theorem popCountAux_adequate : ∀ f g n : Nat, n ≤ f → n ≤ g →
    popCountAux f n = popCountAux g n := by
  intro f
  induction f with
  | zero =>
    intro g n hf _
    have : n = 0 := Nat.le_zero.1 hf
    subst this
    rw [popCountAux_zero, popCountAux_zero]
  | succ f ih =>
    intro g n hf hg
    by_cases hn : n = 0
    · subst hn; rw [popCountAux_zero, popCountAux_zero]
    · have hg1 : 1 ≤ g := by omega
      obtain ⟨g', rfl⟩ : ∃ g', g = g' + 1 := ⟨g - 1, by omega⟩
      show popCountAux (f + 1) n = popCountAux (g' + 1) n
      rw [popCountAux, popCountAux, if_neg hn, if_neg hn]
      congr 1
      exact ih g' (n / 2) (by omega) (by omega)

theorem popCountAux_eq_popCount (f n : Nat) (h : n ≤ f) :
    popCountAux f n = popCount n :=
  popCountAux_adequate f n n h le_rfl

theorem popCount_double_add (n b : Nat) (hb : b ≤ 1) :
    popCount (2 * n + b) = popCount n + b := by
  by_cases h0 : 2 * n + b = 0
  · have hn : n = 0 := by omega
    have hb0 : b = 0 := by omega
    subst hn; subst hb0; rfl
  · obtain ⟨m, hm⟩ : ∃ m, 2 * n + b = m + 1 := ⟨2 * n + b - 1, by omega⟩
    unfold popCount
    rw [hm, popCountAux, if_neg (by omega)]
    have hdiv : (m + 1) / 2 = n := by omega
    have hmod : (m + 1) % 2 = b := by omega
    rw [hdiv, hmod, popCountAux_eq_popCount m n (by omega)]
    rfl

theorem popCount_pow_two (k : Nat) : popCount (2 ^ k) = 1 := by
  induction k with
  | zero => rfl
  | succ k ih =>
    have h : 2 ^ (k + 1) = 2 * 2 ^ k + 0 := by ring
    rw [h, popCount_double_add _ 0 (by omega), ih]

theorem popCount_one_shift (k : Nat) : popCount (1 <<< k) = 1 := by
  rw [Nat.shiftLeft_eq, one_mul]; exact popCount_pow_two k

/-! ## The two-CU hop loop: fuel adequacy and a closed form -/

theorem fsync_axis_steps_adequate : ∀ th f g p0 p1 : Nat, th < f → th < g →
    fsync_axis_steps f p0 p1 th = fsync_axis_steps g p0 p1 th := by
  intro th
  induction th using Nat.strong_induction_on with
  | _ th ih =>
    intro f g p0 p1 hf hg
    obtain ⟨f', rfl⟩ : ∃ f', f = f' + 1 := ⟨f - 1, by omega⟩
    obtain ⟨g', rfl⟩ : ∃ g', g = g' + 1 := ⟨g - 1, by omega⟩
    rw [fsync_axis_steps, fsync_axis_steps]
    by_cases hc : (fsync_same_subtree p0 p1 th && decide (0 < th)) = true
    · rw [if_pos hc, if_pos hc]
      have hparts := hc
      rw [Bool.and_eq_true] at hparts
      have hth : 0 < th := by simpa using hparts.2
      congr 1
      exact ih (th / 2) (by omega) f' g' _ _ (by omega) (by omega)
    · rw [if_neg hc, if_neg hc]

/-- Unfold one productive step of the independent axis walk. -/
theorem fsync_axis_steps_step (p0 p1 th : Nat)
    (hc : (fsync_same_subtree p0 p1 th && decide (0 < th)) = true) :
    fsync_axis_steps (th + 1) p0 p1 th =
      fsync_axis_steps (th / 2 + 1) (fsync_update_pos p0 th).1
        (fsync_update_pos p1 th).1 (th / 2) + 1 := by
  have hparts := hc
  rw [Bool.and_eq_true] at hparts
  have hth : 0 < th := by simpa using hparts.2
  rw [fsync_axis_steps, if_pos hc]
  congr 1
  exact fsync_axis_steps_adequate (th / 2) th (th / 2 + 1) _ _ (by omega) (by omega)

theorem fsync_axis_steps_stall (p0 p1 th : Nat)
    (hc : (fsync_same_subtree p0 p1 th && decide (0 < th)) = false) :
    fsync_axis_steps (th + 1) p0 p1 th = 0 := by
  rw [fsync_axis_steps, if_neg (by simp [hc])]

/-- Closed form for the C `while` loop (lines 210-222): it runs the two
axis walks in lockstep, so each axis contributes its independent step
count truncated to one more than the other axis's count; the final hop
counter is the initial one minus that total.  In particular the value is
independent of the fuel as soon as the fuel exceeds `x_th + y_th`. -/
theorem fsync_hops_loop_eq : ∀ fuel x_p0 x_p1 x_th y_p0 y_p1 y_th hops : Nat,
    x_th + y_th < fuel →
    fsync_hops_loop fuel x_p0 x_p1 x_th y_p0 y_p1 y_th hops =
      hops - (min (fsync_axis_steps (x_th + 1) x_p0 x_p1 x_th)
                  (fsync_axis_steps (y_th + 1) y_p0 y_p1 y_th + 1) +
              min (fsync_axis_steps (y_th + 1) y_p0 y_p1 y_th)
                  (fsync_axis_steps (x_th + 1) x_p0 x_p1 x_th + 1)) := by
  intro fuel
  induction fuel with
  | zero => intro _ _ _ _ _ _ _ h; omega
  | succ fuel ih =>
    intro x_p0 x_p1 x_th y_p0 y_p1 y_th hops hf
    by_cases hx : (fsync_same_subtree x_p0 x_p1 x_th && decide (0 < x_th)) = true
    · have hxparts := hx
      rw [Bool.and_eq_true] at hxparts
      have hxth : 0 < x_th := by simpa using hxparts.2
      by_cases hy : (fsync_same_subtree y_p0 y_p1 y_th && decide (0 < y_th)) = true
      · have hyparts := hy
        rw [Bool.and_eq_true] at hyparts
        have hyth : 0 < y_th := by simpa using hyparts.2
        rw [fsync_hops_loop, if_pos hx, if_pos hy,
          ih _ _ _ _ _ _ _ (by omega),
          fsync_axis_steps_step x_p0 x_p1 x_th hx, fsync_axis_steps_step y_p0 y_p1 y_th hy]
        generalize fsync_axis_steps (x_th / 2 + 1) (fsync_update_pos x_p0 x_th).1
          (fsync_update_pos x_p1 x_th).1 (x_th / 2) = sx
        generalize fsync_axis_steps (y_th / 2 + 1) (fsync_update_pos y_p0 y_th).1
          (fsync_update_pos y_p1 y_th).1 (y_th / 2) = sy
        omega
      · rw [fsync_hops_loop, if_pos hx, if_neg hy,
          fsync_axis_steps_step x_p0 x_p1 x_th hx,
          fsync_axis_steps_stall y_p0 y_p1 y_th (Bool.eq_false_iff.mpr hy)]
        generalize fsync_axis_steps (x_th / 2 + 1) (fsync_update_pos x_p0 x_th).1
          (fsync_update_pos x_p1 x_th).1 (x_th / 2) = sx
        omega
    · by_cases hy : (fsync_same_subtree y_p0 y_p1 y_th && decide (0 < y_th)) = true
      · rw [fsync_hops_loop, if_neg hx, if_pos hy,
          fsync_axis_steps_stall x_p0 x_p1 x_th (Bool.eq_false_iff.mpr hx),
          fsync_axis_steps_step y_p0 y_p1 y_th hy]
        generalize fsync_axis_steps (y_th / 2 + 1) (fsync_update_pos y_p0 y_th).1
          (fsync_update_pos y_p1 y_th).1 (y_th / 2) = sy
        omega
      · rw [fsync_hops_loop, if_neg hx, if_neg hy,
          fsync_axis_steps_stall x_p0 x_p1 x_th (Bool.eq_false_iff.mpr hx),
          fsync_axis_steps_stall y_p0 y_p1 y_th (Bool.eq_false_iff.mpr hy)]
        omega

/-! ## Partition membership helpers -/

theorem not_mem_fsync_partition_h_l {idxs : List Nat} {th : Nat} {st : Nat → FsyncCu}
    {i : Nat} (hi : i ∉ idxs) : i ∉ (fsync_partition_h_cus idxs th st).1 :=
  fun hm => hi (mem_fsync_partition_h_l.1 hm).1

theorem not_mem_fsync_partition_h_h {idxs : List Nat} {th : Nat} {st : Nat → FsyncCu}
    {i : Nat} (hi : i ∉ idxs) : i ∉ (fsync_partition_h_cus idxs th st).2.1 :=
  fun hm => hi (mem_fsync_partition_h_h.1 hm).1

theorem not_mem_fsync_partition_v_l {idxs : List Nat} {th : Nat} {st : Nat → FsyncCu}
    {i : Nat} (hi : i ∉ idxs) : i ∉ (fsync_partition_v_cus idxs th st).1 :=
  fun hm => hi (mem_fsync_partition_v_l.1 hm).1

theorem not_mem_fsync_partition_v_h {idxs : List Nat} {th : Nat} {st : Nat → FsyncCu}
    {i : Nat} (hi : i ∉ idxs) : i ∉ (fsync_partition_v_cus idxs th st).2.1 :=
  fun hm => hi (mem_fsync_partition_v_h.1 hm).1

theorem fsync_partition_h_cover {idxs : List Nat} {th : Nat} {st : Nat → FsyncCu}
    {i : Nat} (hi : i ∈ idxs) :
    i ∈ (fsync_partition_h_cus idxs th st).1 ∨ i ∈ (fsync_partition_h_cus idxs th st).2.1 := by
  by_cases hx : (st i).x_pos < th
  · exact Or.inl (mem_fsync_partition_h_l.2 ⟨hi, hx⟩)
  · exact Or.inr (mem_fsync_partition_h_h.2 ⟨hi, hx⟩)

theorem fsync_partition_v_cover {idxs : List Nat} {th : Nat} {st : Nat → FsyncCu}
    {i : Nat} (hi : i ∈ idxs) :
    i ∈ (fsync_partition_v_cus idxs th st).1 ∨ i ∈ (fsync_partition_v_cus idxs th st).2.1 := by
  by_cases hy : (st i).y_pos < th
  · exact Or.inl (mem_fsync_partition_v_l.2 ⟨hi, hy⟩)
  · exact Or.inr (mem_fsync_partition_v_h.2 ⟨hi, hy⟩)

theorem fsync_partition_h_disj {idxs : List Nat} {th : Nat} {st : Nat → FsyncCu}
    {i : Nat} (h1 : i ∈ (fsync_partition_h_cus idxs th st).1)
    (h2 : i ∈ (fsync_partition_h_cus idxs th st).2.1) : False :=
  (mem_fsync_partition_h_h.1 h2).2 (mem_fsync_partition_h_l.1 h1).2

theorem fsync_partition_v_disj {idxs : List Nat} {th : Nat} {st : Nat → FsyncCu}
    {i : Nat} (h1 : i ∈ (fsync_partition_v_cus idxs th st).1)
    (h2 : i ∈ (fsync_partition_v_cus idxs th st).2.1) : False :=
  (mem_fsync_partition_v_h.1 h2).2 (mem_fsync_partition_v_l.1 h1).2

/-! ## Frame property: the engine never touches an index outside its list -/

theorem fsync_branch_body_frame
    (recf : (Nat → FsyncCu) → List Nat → FsyncDir → Nat → FsyncNode → Bool × (Nat → FsyncCu))
    (st : Nat → FsyncCu) (l h : List Nat) (na : Bool) (dir : FsyncDir)
    (node : FsyncNode) (paxis : FsyncDir) (th : Nat) (sd : FsyncDir) (sth : Nat)
    (sn : FsyncNode) {i : Nat}
    (hrec : ∀ st2 idxs2 d2 t2 n2 (j : Nat), j ∉ idxs2 → (recf st2 idxs2 d2 t2 n2).2 j = st2 j)
    (hli : i ∉ l) (hhi : i ∉ h) :
    (fsync_branch_body recf st l h na dir node paxis th sd sth sn).2 i = st i := by
  simp only [fsync_branch_body]
  rw [hrec _ _ _ _ _ _ hhi, hrec _ _ _ _ _ _ hli]
  split
  · rw [fsync_update_h_poss_not_mem _ _ hhi, fsync_update_cus_req_not_mem _ _ _ _ hhi,
      fsync_update_cus_req_not_mem _ _ _ _ hli]
  · rw [fsync_update_v_poss_not_mem _ _ hhi, fsync_update_cus_req_not_mem _ _ _ _ hhi,
      fsync_update_cus_req_not_mem _ _ _ _ hli]

theorem fsync_partition_subtree_frame : ∀ (fuel : Nat) (st : Nat → FsyncCu)
    (idxs : List Nat) (dir : FsyncDir) (th : Nat) (node : FsyncNode) (i : Nat),
    i ∉ idxs → (fsync_partition_subtree fuel st idxs dir th node).2 i = st i := by
  intro fuel
  induction fuel with
  | zero => intro st idxs dir th node i _; rfl
  | succ fuel ih =>
    intro st idxs dir th node i hi
    rw [fsync_partition_subtree]
    unfold fsync_partition_subtree_body
    have hrec : ∀ st2 idxs2 d2 t2 n2 (j : Nat), j ∉ idxs2 →
        (fsync_partition_subtree fuel st2 idxs2 d2 t2 n2).2 j = st2 j :=
      fun st2 idxs2 d2 t2 n2 j hj => ih st2 idxs2 d2 t2 n2 j hj
    by_cases hth : th < 1
    · rw [if_pos hth]
    · rw [if_neg hth]
      cases node <;> dsimp only <;> repeat' split
      all_goals
        first
        | exact fsync_branch_body_frame _ _ _ _ _ _ _ _ _ _ _ _ hrec
            (not_mem_fsync_partition_v_l hi) (not_mem_fsync_partition_v_h hi)
        | exact fsync_branch_body_frame _ _ _ _ _ _ _ _ _ _ _ _ hrec
            (not_mem_fsync_partition_h_l hi) (not_mem_fsync_partition_h_h hi)

/-! ## More update characterizations -/

theorem fsync_update_h_poss_y (idxs : List Nat) (th : Nat) (st : Nat → FsyncCu)
    (i : Nat) : (fsync_update_h_poss idxs th st i).y_pos = (st i).y_pos := by
  unfold fsync_update_h_poss; split <;> rfl

theorem fsync_update_v_poss_x (idxs : List Nat) (th : Nat) (st : Nat → FsyncCu)
    (i : Nat) : (fsync_update_v_poss idxs th st i).x_pos = (st i).x_pos := by
  unfold fsync_update_v_poss; split <;> rfl

theorem fsync_update_h_poss_x_mem {idxs : List Nat} {i : Nat} (th : Nat)
    (st : Nat → FsyncCu) (h : i ∈ idxs) :
    (fsync_update_h_poss idxs th st i).x_pos = (fsync_update_pos (st i).x_pos th).1 := by
  unfold fsync_update_h_poss; rw [if_pos h]

theorem fsync_update_v_poss_y_mem {idxs : List Nat} {i : Nat} (th : Nat)
    (st : Nat → FsyncCu) (h : i ∈ idxs) :
    (fsync_update_v_poss idxs th st i).y_pos = (fsync_update_pos (st i).y_pos th).1 := by
  unfold fsync_update_v_poss; rw [if_pos h]

theorem fsync_update_cus_req_inactive_default (idxs : List Nat) (dir : FsyncDir)
    (node : FsyncNode) (st : Nat → FsyncCu) (i : Nat)
    (hd : (st i).fsync_req = default_req) :
    (fsync_update_cus_req idxs dir node false st i).fsync_req = default_req := by
  unfold fsync_update_cus_req; split
  · rw [fsync_update_cu_req_inactive, hd]; simp [default_req]
  · exact hd

theorem fsync_update_cu_req_popcount (dir : FsyncDir) (node : FsyncNode) (act : Bool)
    (c : FsyncCu) : popCount ((fsync_update_cu_req dir node act c).fsync_req.fs_req_aggr) ≤
      popCount c.fsync_req.fs_req_aggr + 1 := by
  have hb : (if act = true then 1 else 0) ≤ 1 := by split <;> omega
  unfold fsync_update_cu_req
  dsimp only
  split <;> dsimp only <;> rw [popCount_double_add _ _ hb] <;> omega

theorem fsync_update_cus_req_popcount (idxs : List Nat) (dir : FsyncDir)
    (node : FsyncNode) (act : Bool) (st : Nat → FsyncCu) (i : Nat) :
    popCount ((fsync_update_cus_req idxs dir node act st i).fsync_req.fs_req_aggr) ≤
      popCount ((st i).fsync_req.fs_req_aggr) + 1 := by
  unfold fsync_update_cus_req; split
  · exact fsync_update_cu_req_popcount _ _ _ _
  · omega

/-- The partition activity flag is `false` on a subset whose members all
share one position (the relevant coordinate never splits). -/
theorem fsync_partition_h_active_alleq {idxs : List Nat} {th : Nat} {st : Nat → FsyncCu}
    {x y : Nat} (hall : ∀ j ∈ idxs, (st j).x_pos = x ∧ (st j).y_pos = y) :
    (fsync_partition_h_cus idxs th st).2.2 = false := by
  unfold fsync_partition_h_cus
  dsimp only
  by_cases hx : x < th
  · have hnil : idxs.filter (fun i => ! decide ((st i).x_pos < th)) = [] :=
      List.filter_eq_nil_iff.2 (fun j hj => by simp [(hall j hj).1, hx])
    rw [hnil]; simp
  · have hnil : idxs.filter (fun i => decide ((st i).x_pos < th)) = [] :=
      List.filter_eq_nil_iff.2 (fun j hj => by simp [(hall j hj).1, hx])
    rw [hnil]; simp

theorem fsync_partition_v_active_alleq {idxs : List Nat} {th : Nat} {st : Nat → FsyncCu}
    {x y : Nat} (hall : ∀ j ∈ idxs, (st j).x_pos = x ∧ (st j).y_pos = y) :
    (fsync_partition_v_cus idxs th st).2.2 = false := by
  unfold fsync_partition_v_cus
  dsimp only
  by_cases hy : y < th
  · have hnil : idxs.filter (fun i => ! decide ((st i).y_pos < th)) = [] :=
      List.filter_eq_nil_iff.2 (fun j hj => by simp [(hall j hj).2, hy])
    rw [hnil]; simp
  · have hnil : idxs.filter (fun i => decide ((st i).y_pos < th)) = [] :=
      List.filter_eq_nil_iff.2 (fun j hj => by simp [(hall j hj).2, hy])
    rw [hnil]; simp

/-! ## Branch-body invariant lemmas -/

theorem fsync_branch_body_node_pres
    (recf : (Nat → FsyncCu) → List Nat → FsyncDir → Nat → FsyncNode → Bool × (Nat → FsyncCu))
    (st : Nat → FsyncCu) (l h : List Nat) (na : Bool) (dir : FsyncDir)
    (node : FsyncNode) (paxis : FsyncDir) (th : Nat) (sd : FsyncDir) (sth : Nat)
    (sn : FsyncNode) {i : Nat}
    (hrecp : ∀ st2 idxs2 d2 t2 n2 (j : Nat),
      (st2 j).fsync_req.req_node ≠ FsyncNode.null_fs_node →
      ((recf st2 idxs2 d2 t2 n2).2 j).fsync_req.req_node = (st2 j).fsync_req.req_node)
    (hnn : (st i).fsync_req.req_node ≠ FsyncNode.null_fs_node) :
    ((fsync_branch_body recf st l h na dir node paxis th sd sth sn).2 i).fsync_req.req_node =
      (st i).fsync_req.req_node := by
  simp only [fsync_branch_body]
  have h1 : (fsync_update_cus_req l dir node na st i).fsync_req.req_node =
      (st i).fsync_req.req_node := fsync_update_cus_req_node_pres _ _ _ _ _ hnn
  have hnn1 : (fsync_update_cus_req l dir node na st i).fsync_req.req_node ≠
      FsyncNode.null_fs_node := by rw [h1]; exact hnn
  have h2 : (fsync_update_cus_req h dir node na
        (fsync_update_cus_req l dir node na st) i).fsync_req.req_node =
      (st i).fsync_req.req_node := by
    rw [fsync_update_cus_req_node_pres _ _ _ _ _ hnn1, h1]
  have hnn2 : (fsync_update_cus_req h dir node na
        (fsync_update_cus_req l dir node na st) i).fsync_req.req_node ≠
      FsyncNode.null_fs_node := by rw [h2]; exact hnn
  have h3 : ((if paxis = FsyncDir.h_fs_dir then
        fsync_update_h_poss h th (fsync_update_cus_req h dir node na
          (fsync_update_cus_req l dir node na st))
      else
        fsync_update_v_poss h th (fsync_update_cus_req h dir node na
          (fsync_update_cus_req l dir node na st))) i).fsync_req.req_node =
      (st i).fsync_req.req_node := by
    split
    · rw [fsync_update_h_poss_req, h2]
    · rw [fsync_update_v_poss_req, h2]
  have hnn3 : ((if paxis = FsyncDir.h_fs_dir then
        fsync_update_h_poss h th (fsync_update_cus_req h dir node na
          (fsync_update_cus_req l dir node na st))
      else
        fsync_update_v_poss h th (fsync_update_cus_req h dir node na
          (fsync_update_cus_req l dir node na st))) i).fsync_req.req_node ≠
      FsyncNode.null_fs_node := by rw [h3]; exact hnn
  have h4 := hrecp _ l sd sth sn i hnn3
  have hnn4 := ne_of_eq_of_ne h4 hnn3
  have h5 := hrecp _ h sd sth sn i hnn4
  rw [h5, h4, h3]

theorem fsync_branch_body_false_default
    (recf : (Nat → FsyncCu) → List Nat → FsyncDir → Nat → FsyncNode → Bool × (Nat → FsyncCu))
    (st : Nat → FsyncCu) (l h : List Nat) (na : Bool) (dir : FsyncDir)
    (node : FsyncNode) (paxis : FsyncDir) (th : Nat) (sd : FsyncDir) (sth : Nat)
    (sn : FsyncNode) {i : Nat}
    (hrecd : ∀ st2 idxs2 d2 t2 n2, (recf st2 idxs2 d2 t2 n2).1 = false →
      ∀ j ∈ idxs2, (st2 j).fsync_req = default_req →
      ((recf st2 idxs2 d2 t2 n2).2 j).fsync_req = default_req)
    (hrecf : ∀ st2 idxs2 d2 t2 n2 (j : Nat), j ∉ idxs2 →
      (recf st2 idxs2 d2 t2 n2).2 j = st2 j)
    (hdisj : ∀ j, j ∈ l → j ∈ h → False)
    (hfalse : (fsync_branch_body recf st l h na dir node paxis th sd sth sn).1 = false)
    (hi : i ∈ l ∨ i ∈ h) (hd : (st i).fsync_req = default_req) :
    ((fsync_branch_body recf st l h na dir node paxis th sd sth sn).2 i).fsync_req =
      default_req := by
  simp only [fsync_branch_body] at hfalse ⊢
  rw [Bool.or_eq_false_iff, Bool.or_eq_false_iff] at hfalse
  obtain ⟨⟨hna, hrl⟩, hrh⟩ := hfalse
  subst hna
  have hd3 : ((if paxis = FsyncDir.h_fs_dir then
        fsync_update_h_poss h th (fsync_update_cus_req h dir node false
          (fsync_update_cus_req l dir node false st))
      else
        fsync_update_v_poss h th (fsync_update_cus_req h dir node false
          (fsync_update_cus_req l dir node false st))) i).fsync_req = default_req := by
    have hd2 : (fsync_update_cus_req h dir node false
        (fsync_update_cus_req l dir node false st) i).fsync_req = default_req :=
      fsync_update_cus_req_inactive_default _ _ _ _ _
        (fsync_update_cus_req_inactive_default _ _ _ _ _ hd)
    split
    · rw [fsync_update_h_poss_req]; exact hd2
    · rw [fsync_update_v_poss_req]; exact hd2
  rcases hi with hil | hih
  · have hnoth : i ∉ h := fun hm => hdisj i hil hm
    rw [hrecf _ _ _ _ _ i hnoth]
    exact hrecd _ _ _ _ _ hrl i hil hd3
  · have hnotl : i ∉ l := fun hm => hdisj i hm hih
    refine hrecd _ _ _ _ _ hrh i hih ?_
    rw [hrecf _ _ _ _ _ i hnotl]
    exact hd3

theorem fsync_branch_body_alleq_false
    (recf : (Nat → FsyncCu) → List Nat → FsyncDir → Nat → FsyncNode → Bool × (Nat → FsyncCu))
    (st : Nat → FsyncCu) (l h : List Nat) (na : Bool) (dir : FsyncDir)
    (node : FsyncNode) (paxis : FsyncDir) (th : Nat) (sd : FsyncDir) (sth : Nat)
    (sn : FsyncNode) (x y : Nat)
    (hrecA : ∀ st2 idxs2 d2 t2 n2 x2 y2,
      (∀ j ∈ idxs2, (st2 j).x_pos = x2 ∧ (st2 j).y_pos = y2) →
      (recf st2 idxs2 d2 t2 n2).1 = false)
    (hrecF : ∀ st2 idxs2 d2 t2 n2 (j : Nat), j ∉ idxs2 →
      (recf st2 idxs2 d2 t2 n2).2 j = st2 j)
    (hdisj : ∀ j, j ∈ l → j ∈ h → False)
    (hna : na = false)
    (hall : ∀ j, j ∈ l ∨ j ∈ h → (st j).x_pos = x ∧ (st j).y_pos = y) :
    (fsync_branch_body recf st l h na dir node paxis th sd sth sn).1 = false := by
  subst hna
  simp only [fsync_branch_body]
  split
  · -- paxis = h_fs_dir: the high half's x coordinate is renormalized
    have hl0 := hrecA (fsync_update_h_poss h th (fsync_update_cus_req h dir node false
        (fsync_update_cus_req l dir node false st))) l sd sth sn x y
      (fun j hj => by
        have hjnh : j ∉ h := fun hm => hdisj j hj hm
        rw [fsync_update_h_poss_not_mem _ _ hjnh]
        constructor
        · rw [fsync_update_cus_req_x_pos, fsync_update_cus_req_x_pos]
          exact (hall j (Or.inl hj)).1
        · rw [fsync_update_cus_req_y_pos, fsync_update_cus_req_y_pos]
          exact (hall j (Or.inl hj)).2)
    have hh0 := hrecA ((recf (fsync_update_h_poss h th (fsync_update_cus_req h dir node false
        (fsync_update_cus_req l dir node false st))) l sd sth sn).2) h sd sth sn
      (fsync_update_pos x th).1 y
      (fun j hj => by
        have hjnl : j ∉ l := fun hm => hdisj j hm hj
        rw [hrecF _ _ _ _ _ j hjnl]
        constructor
        · rw [fsync_update_h_poss_x_mem _ _ hj, fsync_update_cus_req_x_pos,
            fsync_update_cus_req_x_pos, (hall j (Or.inr hj)).1]
        · rw [fsync_update_h_poss_y, fsync_update_cus_req_y_pos,
            fsync_update_cus_req_y_pos]
          exact (hall j (Or.inr hj)).2)
    rw [hl0, hh0]
    rfl
  · have hl0 := hrecA (fsync_update_v_poss h th (fsync_update_cus_req h dir node false
        (fsync_update_cus_req l dir node false st))) l sd sth sn x y
      (fun j hj => by
        have hjnh : j ∉ h := fun hm => hdisj j hj hm
        rw [fsync_update_v_poss_not_mem _ _ hjnh]
        constructor
        · rw [fsync_update_cus_req_x_pos, fsync_update_cus_req_x_pos]
          exact (hall j (Or.inl hj)).1
        · rw [fsync_update_cus_req_y_pos, fsync_update_cus_req_y_pos]
          exact (hall j (Or.inl hj)).2)
    have hh0 := hrecA ((recf (fsync_update_v_poss h th (fsync_update_cus_req h dir node false
        (fsync_update_cus_req l dir node false st))) l sd sth sn).2) h sd sth sn
      x (fsync_update_pos y th).1
      (fun j hj => by
        have hjnl : j ∉ l := fun hm => hdisj j hm hj
        rw [hrecF _ _ _ _ _ j hjnl]
        constructor
        · rw [fsync_update_v_poss_x, fsync_update_cus_req_x_pos,
            fsync_update_cus_req_x_pos]
          exact (hall j (Or.inr hj)).1
        · rw [fsync_update_v_poss_y_mem _ _ hj, fsync_update_cus_req_y_pos,
            fsync_update_cus_req_y_pos, (hall j (Or.inr hj)).2])
    rw [hl0, hh0]
    rfl

theorem fsync_branch_body_popcount
    (recf : (Nat → FsyncCu) → List Nat → FsyncDir → Nat → FsyncNode → Bool × (Nat → FsyncCu))
    (st : Nat → FsyncCu) (l h : List Nat) (na : Bool) (dir : FsyncDir)
    (node : FsyncNode) (paxis : FsyncDir) (th : Nat) (sd : FsyncDir) (sth : Nat)
    (sn : FsyncNode) (B : Nat) {i : Nat}
    (hrecP : ∀ st2 idxs2 (j : Nat), j ∈ idxs2 →
      popCount (((recf st2 idxs2 sd sth sn).2 j).fsync_req.fs_req_aggr) ≤
        popCount ((st2 j).fsync_req.fs_req_aggr) + B)
    (hrecF : ∀ st2 idxs2 d2 t2 n2 (j : Nat), j ∉ idxs2 →
      (recf st2 idxs2 d2 t2 n2).2 j = st2 j)
    (hdisj : ∀ j, j ∈ l → j ∈ h → False)
    (hi : i ∈ l ∨ i ∈ h) :
    popCount (((fsync_branch_body recf st l h na dir node paxis th sd sth sn).2 i).fsync_req.fs_req_aggr) ≤
      popCount ((st i).fsync_req.fs_req_aggr) + (1 + B) := by
  simp only [fsync_branch_body]
  have hc3 : popCount (((if paxis = FsyncDir.h_fs_dir then
        fsync_update_h_poss h th (fsync_update_cus_req h dir node na
          (fsync_update_cus_req l dir node na st))
      else
        fsync_update_v_poss h th (fsync_update_cus_req h dir node na
          (fsync_update_cus_req l dir node na st))) i).fsync_req.fs_req_aggr) ≤
      popCount ((st i).fsync_req.fs_req_aggr) + 1 := by
    have hc2 : popCount ((fsync_update_cus_req h dir node na
        (fsync_update_cus_req l dir node na st) i).fsync_req.fs_req_aggr) ≤
        popCount ((st i).fsync_req.fs_req_aggr) + 1 := by
      rcases hi with hil | hih
      · have hnoth : i ∉ h := fun hm => hdisj i hil hm
        rw [fsync_update_cus_req_not_mem _ _ _ _ hnoth]
        exact fsync_update_cus_req_popcount _ _ _ _ _ _
      · have hnotl : i ∉ l := fun hm => hdisj i hm hih
        calc popCount ((fsync_update_cus_req h dir node na
              (fsync_update_cus_req l dir node na st) i).fsync_req.fs_req_aggr) ≤
            popCount ((fsync_update_cus_req l dir node na st i).fsync_req.fs_req_aggr) + 1 :=
              fsync_update_cus_req_popcount _ _ _ _ _ _
          _ = popCount ((st i).fsync_req.fs_req_aggr) + 1 := by
              rw [fsync_update_cus_req_not_mem _ _ _ _ hnotl]
    split
    · rw [fsync_update_h_poss_req]; exact hc2
    · rw [fsync_update_v_poss_req]; exact hc2
  rcases hi with hil | hih
  · have hnoth : i ∉ h := fun hm => hdisj i hil hm
    rw [hrecF _ _ _ _ _ i hnoth]
    refine le_trans (hrecP _ l i hil) ?_
    omega
  · have hnotl : i ∉ l := fun hm => hdisj i hm hih
    refine le_trans (hrecP _ h i hih) ?_
    rw [hrecF _ _ _ _ _ i hnotl]
    omega

/-! ## Engine invariants -/

/-- A node field already set to a concrete kind is never overwritten by
the partition engine ("first write wins" below the entry point). -/
theorem fsync_partition_subtree_node_pres : ∀ (fuel : Nat) (st : Nat → FsyncCu)
    (idxs : List Nat) (dir : FsyncDir) (th : Nat) (node : FsyncNode) (i : Nat),
    (st i).fsync_req.req_node ≠ FsyncNode.null_fs_node →
    ((fsync_partition_subtree fuel st idxs dir th node).2 i).fsync_req.req_node =
      (st i).fsync_req.req_node := by
  intro fuel
  induction fuel with
  | zero => intro st idxs dir th node i _; rfl
  | succ fuel ih =>
    intro st idxs dir th node i hnn
    rw [fsync_partition_subtree]
    unfold fsync_partition_subtree_body
    have hrecp : ∀ st2 idxs2 d2 t2 n2 (j : Nat),
        (st2 j).fsync_req.req_node ≠ FsyncNode.null_fs_node →
        ((fsync_partition_subtree fuel st2 idxs2 d2 t2 n2).2 j).fsync_req.req_node =
          (st2 j).fsync_req.req_node :=
      fun st2 idxs2 d2 t2 n2 j hj => ih st2 idxs2 d2 t2 n2 j hj
    by_cases hth : th < 1
    · rw [if_pos hth]
    · rw [if_neg hth]
      cases node <;> dsimp only <;> repeat' split
      all_goals exact fsync_branch_body_node_pres _ _ _ _ _ _ _ _ _ _ _ _ hrecp hnn

/-- If the engine reports overall failure, every index of its subset that
started at the reset request still holds the reset request afterwards
(every visited node was inactive, so only `0` bits were appended to a
zero aggregate and no id/node was written). -/
theorem fsync_partition_subtree_false_default : ∀ (fuel : Nat) (st : Nat → FsyncCu)
    (idxs : List Nat) (dir : FsyncDir) (th : Nat) (node : FsyncNode),
    (fsync_partition_subtree fuel st idxs dir th node).1 = false →
    ∀ i ∈ idxs, (st i).fsync_req = default_req →
    ((fsync_partition_subtree fuel st idxs dir th node).2 i).fsync_req = default_req := by
  intro fuel
  induction fuel with
  | zero => intro st idxs dir th node _ i _ hd; exact hd
  | succ fuel ih =>
    intro st idxs dir th node hfalse i hi hd
    rw [fsync_partition_subtree] at hfalse ⊢
    unfold fsync_partition_subtree_body at hfalse ⊢
    have hrecd : ∀ st2 idxs2 d2 t2 n2,
        (fsync_partition_subtree fuel st2 idxs2 d2 t2 n2).1 = false →
        ∀ j ∈ idxs2, (st2 j).fsync_req = default_req →
        ((fsync_partition_subtree fuel st2 idxs2 d2 t2 n2).2 j).fsync_req = default_req :=
      fun st2 idxs2 d2 t2 n2 hf j hj hdj => ih st2 idxs2 d2 t2 n2 hf j hj hdj
    have hrecf := fsync_partition_subtree_frame fuel
    by_cases hth : th < 1
    · rw [if_pos hth] at hfalse ⊢; exact hd
    · rw [if_neg hth] at hfalse ⊢
      cases node with
      | hv_fs_node =>
        dsimp only at hfalse ⊢
        split at hfalse <;> rename_i hc1 <;> split at hfalse <;> rename_i hc2
        · rw [if_pos hc1, if_pos hc2]
          exact fsync_branch_body_false_default _ _ _ _ _ _ _ _ _ _ _ _ hrecd hrecf
            (fun j h1 h2 => fsync_partition_v_disj h1 h2) hfalse
            (fsync_partition_v_cover hi) hd
        · rw [if_pos hc1, if_neg hc2]
          exact fsync_branch_body_false_default _ _ _ _ _ _ _ _ _ _ _ _ hrecd hrecf
            (fun j h1 h2 => fsync_partition_h_disj h1 h2) hfalse
            (fsync_partition_h_cover hi) hd
        · rw [if_neg hc1, if_pos hc2]
          exact fsync_branch_body_false_default _ _ _ _ _ _ _ _ _ _ _ _ hrecd hrecf
            (fun j h1 h2 => fsync_partition_v_disj h1 h2) hfalse
            (fsync_partition_v_cover hi) hd
        · rw [if_neg hc1, if_neg hc2]
          exact fsync_branch_body_false_default _ _ _ _ _ _ _ _ _ _ _ _ hrecd hrecf
            (fun j h1 h2 => fsync_partition_h_disj h1 h2) hfalse
            (fsync_partition_h_cover hi) hd
      | null_fs_node =>
        dsimp only at hfalse ⊢
        split at hfalse <;> rename_i hc
        · rw [if_pos hc]
          exact fsync_branch_body_false_default _ _ _ _ _ _ _ _ _ _ _ _ hrecd hrecf
            (fun j h1 h2 => fsync_partition_h_disj h1 h2) hfalse
            (fsync_partition_h_cover hi) hd
        · rw [if_neg hc]
          exact fsync_branch_body_false_default _ _ _ _ _ _ _ _ _ _ _ _ hrecd hrecf
            (fun j h1 h2 => fsync_partition_v_disj h1 h2) hfalse
            (fsync_partition_v_cover hi) hd
      | h_fs_node =>
        dsimp only at hfalse ⊢
        split at hfalse <;> rename_i hc
        · rw [if_pos hc]
          exact fsync_branch_body_false_default _ _ _ _ _ _ _ _ _ _ _ _ hrecd hrecf
            (fun j h1 h2 => fsync_partition_h_disj h1 h2) hfalse
            (fsync_partition_h_cover hi) hd
        · rw [if_neg hc]
          exact fsync_branch_body_false_default _ _ _ _ _ _ _ _ _ _ _ _ hrecd hrecf
            (fun j h1 h2 => fsync_partition_v_disj h1 h2) hfalse
            (fsync_partition_v_cover hi) hd
      | v_fs_node =>
        dsimp only at hfalse ⊢
        split at hfalse <;> rename_i hc
        · rw [if_pos hc]
          exact fsync_branch_body_false_default _ _ _ _ _ _ _ _ _ _ _ _ hrecd hrecf
            (fun j h1 h2 => fsync_partition_h_disj h1 h2) hfalse
            (fsync_partition_h_cover hi) hd
        · rw [if_neg hc]
          exact fsync_branch_body_false_default _ _ _ _ _ _ _ _ _ _ _ _ hrecd hrecf
            (fun j h1 h2 => fsync_partition_v_disj h1 h2) hfalse
            (fsync_partition_v_cover hi) hd

/-- When all CUs of the subset share one grid position, no partition is
ever active on any level, so the engine reports failure. -/
theorem fsync_partition_subtree_alleq_false : ∀ (fuel : Nat) (st : Nat → FsyncCu)
    (idxs : List Nat) (dir : FsyncDir) (th : Nat) (node : FsyncNode) (x y : Nat),
    (∀ j ∈ idxs, (st j).x_pos = x ∧ (st j).y_pos = y) →
    (fsync_partition_subtree fuel st idxs dir th node).1 = false := by
  intro fuel
  induction fuel with
  | zero => intro st idxs dir th node x y _; rfl
  | succ fuel ih =>
    intro st idxs dir th node x y hall
    rw [fsync_partition_subtree]
    unfold fsync_partition_subtree_body
    have hrecA : ∀ st2 idxs2 d2 t2 n2 (x2 y2 : Nat),
        (∀ j ∈ idxs2, (st2 j).x_pos = x2 ∧ (st2 j).y_pos = y2) →
        (fsync_partition_subtree fuel st2 idxs2 d2 t2 n2).1 = false :=
      fun st2 idxs2 d2 t2 n2 x2 y2 hh => ih st2 idxs2 d2 t2 n2 x2 y2 hh
    have hrecF := fsync_partition_subtree_frame fuel
    by_cases hth : th < 1
    · rw [if_pos hth]
    · rw [if_neg hth]
      have hha : (fsync_partition_h_cus idxs th st).2.2 = false :=
        fsync_partition_h_active_alleq hall
      have hva : (fsync_partition_v_cus idxs th st).2.2 = false :=
        fsync_partition_v_active_alleq hall
      cases node <;> dsimp only <;> repeat' split
      all_goals
        first
        | exact fsync_branch_body_alleq_false _ _ _ _ _ _ _ _ _ _ _ _ x y hrecA hrecF
            (fun j h1 h2 => fsync_partition_v_disj h1 h2)
            (by rw [hha]; rfl)
            (fun j hj => hall j (by
              rcases hj with hj | hj
              · exact (mem_fsync_partition_v_l.1 hj).1
              · exact (mem_fsync_partition_v_h.1 hj).1))
        | exact fsync_branch_body_alleq_false _ _ _ _ _ _ _ _ _ _ _ _ x y hrecA hrecF
            (fun j h1 h2 => fsync_partition_h_disj h1 h2)
            (by rw [hha]; rfl)
            (fun j hj => hall j (by
              rcases hj with hj | hj
              · exact (mem_fsync_partition_h_l.1 hj).1
              · exact (mem_fsync_partition_h_h.1 hj).1))
        | exact fsync_branch_body_alleq_false _ _ _ _ _ _ _ _ _ _ _ _ x y hrecA hrecF
            (fun j h1 h2 => fsync_partition_v_disj h1 h2)
            hva
            (fun j hj => hall j (by
              rcases hj with hj | hj
              · exact (mem_fsync_partition_v_l.1 hj).1
              · exact (mem_fsync_partition_v_h.1 hj).1))
        | exact fsync_branch_body_alleq_false _ _ _ _ _ _ _ _ _ _ _ _ x y hrecA hrecF
            (fun j h1 h2 => fsync_partition_h_disj h1 h2)
            hha
            (fun j hj => hall j (by
              rcases hj with hj | hj
              · exact (mem_fsync_partition_h_l.1 hj).1
              · exact (mem_fsync_partition_h_h.1 hj).1))

theorem fsync_lvl_bound_v_eq_h (fuel th : Nat) :
    fsync_lvl_bound fuel th FsyncNode.v_fs_node =
      fsync_lvl_bound fuel th FsyncNode.h_fs_node := by
  cases fuel with
  | zero => rfl
  | succ fuel => simp [fsync_lvl_bound]

/-- Each CU's aggregate gains at most one bit per recursion level, so
its popcount grows by at most the level bound. -/
theorem fsync_partition_subtree_popcount : ∀ (fuel : Nat) (st : Nat → FsyncCu)
    (idxs : List Nat) (dir : FsyncDir) (th : Nat) (node : FsyncNode) (i : Nat),
    i ∈ idxs →
    popCount (((fsync_partition_subtree fuel st idxs dir th node).2 i).fsync_req.fs_req_aggr) ≤
      popCount ((st i).fsync_req.fs_req_aggr) + fsync_lvl_bound fuel th node := by
  intro fuel
  induction fuel with
  | zero =>
    intro st idxs dir th node i _
    simp [fsync_partition_subtree, fsync_lvl_bound]
  | succ fuel ih =>
    intro st idxs dir th node i hi
    rw [fsync_partition_subtree]
    unfold fsync_partition_subtree_body
    have hrecF := fsync_partition_subtree_frame fuel
    by_cases hth : th < 1
    · rw [if_pos hth, fsync_lvl_bound, if_pos hth]
      dsimp only
      omega
    · rw [if_neg hth]
      cases node with
      | hv_fs_node =>
        rw [fsync_lvl_bound, if_neg hth,
          if_pos (show FsyncNode.hv_fs_node = FsyncNode.hv_fs_node from rfl)]
        dsimp only
        repeat' split
        all_goals
          first
          | (refine le_trans (fsync_branch_body_popcount _ _ _ _ _ _ _ _ _ _ _ _
              (fsync_lvl_bound fuel th FsyncNode.h_fs_node)
              (fun st2 idxs2 j hj =>
                ih st2 idxs2 FsyncDir.h_fs_dir th FsyncNode.h_fs_node j hj)
              hrecF (fun j h1 h2 => fsync_partition_v_disj h1 h2)
              (fsync_partition_v_cover hi)) ?_
             omega)
          | (refine le_trans (fsync_branch_body_popcount _ _ _ _ _ _ _ _ _ _ _ _
              (fsync_lvl_bound fuel th FsyncNode.v_fs_node)
              (fun st2 idxs2 j hj =>
                ih st2 idxs2 FsyncDir.v_fs_dir th FsyncNode.v_fs_node j hj)
              hrecF (fun j h1 h2 => fsync_partition_h_disj h1 h2)
              (fsync_partition_h_cover hi)) ?_
             have hveq := fsync_lvl_bound_v_eq_h fuel th
             omega)
      | null_fs_node =>
        rw [fsync_lvl_bound, if_neg hth,
          if_neg (show ¬FsyncNode.null_fs_node = FsyncNode.hv_fs_node from by simp)]
        dsimp only
        repeat' split
        all_goals
          first
          | (refine le_trans (fsync_branch_body_popcount _ _ _ _ _ _ _ _ _ _ _ _
              (fsync_lvl_bound fuel (th / 2) FsyncNode.hv_fs_node)
              (fun st2 idxs2 j hj => ih st2 idxs2 dir (th / 2) FsyncNode.hv_fs_node j hj)
              hrecF (fun j h1 h2 => fsync_partition_h_disj h1 h2)
              (fsync_partition_h_cover hi)) ?_
             omega)
          | (refine le_trans (fsync_branch_body_popcount _ _ _ _ _ _ _ _ _ _ _ _
              (fsync_lvl_bound fuel (th / 2) FsyncNode.hv_fs_node)
              (fun st2 idxs2 j hj => ih st2 idxs2 dir (th / 2) FsyncNode.hv_fs_node j hj)
              hrecF (fun j h1 h2 => fsync_partition_v_disj h1 h2)
              (fsync_partition_v_cover hi)) ?_
             omega)
      | h_fs_node =>
        rw [fsync_lvl_bound, if_neg hth,
          if_neg (show ¬FsyncNode.h_fs_node = FsyncNode.hv_fs_node from by simp)]
        dsimp only
        repeat' split
        all_goals
          first
          | (refine le_trans (fsync_branch_body_popcount _ _ _ _ _ _ _ _ _ _ _ _
              (fsync_lvl_bound fuel (th / 2) FsyncNode.hv_fs_node)
              (fun st2 idxs2 j hj => ih st2 idxs2 dir (th / 2) FsyncNode.hv_fs_node j hj)
              hrecF (fun j h1 h2 => fsync_partition_h_disj h1 h2)
              (fsync_partition_h_cover hi)) ?_
             omega)
          | (refine le_trans (fsync_branch_body_popcount _ _ _ _ _ _ _ _ _ _ _ _
              (fsync_lvl_bound fuel (th / 2) FsyncNode.hv_fs_node)
              (fun st2 idxs2 j hj => ih st2 idxs2 dir (th / 2) FsyncNode.hv_fs_node j hj)
              hrecF (fun j h1 h2 => fsync_partition_v_disj h1 h2)
              (fsync_partition_v_cover hi)) ?_
             omega)
      | v_fs_node =>
        rw [fsync_lvl_bound, if_neg hth,
          if_neg (show ¬FsyncNode.v_fs_node = FsyncNode.hv_fs_node from by simp)]
        dsimp only
        repeat' split
        all_goals
          first
          | (refine le_trans (fsync_branch_body_popcount _ _ _ _ _ _ _ _ _ _ _ _
              (fsync_lvl_bound fuel (th / 2) FsyncNode.hv_fs_node)
              (fun st2 idxs2 j hj => ih st2 idxs2 dir (th / 2) FsyncNode.hv_fs_node j hj)
              hrecF (fun j h1 h2 => fsync_partition_h_disj h1 h2)
              (fsync_partition_h_cover hi)) ?_
             omega)
          | (refine le_trans (fsync_branch_body_popcount _ _ _ _ _ _ _ _ _ _ _ _
              (fsync_lvl_bound fuel (th / 2) FsyncNode.hv_fs_node)
              (fun st2 idxs2 j hj => ih st2 idxs2 dir (th / 2) FsyncNode.hv_fs_node j hj)
              hrecF (fun j h1 h2 => fsync_partition_v_disj h1 h2)
              (fsync_partition_v_cover hi)) ?_
             omega)

/-! ## Fuel adequacy for the engine -/

/-- One fuel unit is consumed per recursion level; this is the decreasing
measure component contributed by the node kind. -/
def fsync_node_bit : FsyncNode → Nat
  | FsyncNode.hv_fs_node => 1
  | _ => 0

theorem fsync_branch_body_congr
    (recf1 recf2 : (Nat → FsyncCu) → List Nat → FsyncDir → Nat → FsyncNode → Bool × (Nat → FsyncCu))
    (st : Nat → FsyncCu) (l h : List Nat) (na : Bool) (dir : FsyncDir)
    (node : FsyncNode) (paxis : FsyncDir) (th : Nat) (sd : FsyncDir) (sth : Nat)
    (sn : FsyncNode)
    (hrec : ∀ st2 idxs2, recf1 st2 idxs2 sd sth sn = recf2 st2 idxs2 sd sth sn) :
    fsync_branch_body recf1 st l h na dir node paxis th sd sth sn =
      fsync_branch_body recf2 st l h na dir node paxis th sd sth sn := by
  simp only [fsync_branch_body]
  simp only [hrec]

/-- The engine's value does not depend on the fuel once the fuel exceeds the
measure `2 * threshold + (node = hv)`: every level strictly decreases that
measure, so `fsync_gen_reqs`' fuel `2 * __FSYNC_DEFAULT_TH__ + 2` never runs
out. -/
theorem fsync_partition_subtree_fuel_adequate : ∀ (f1 f2 : Nat)
    (st : Nat → FsyncCu) (idxs : List Nat) (dir : FsyncDir) (th : Nat)
    (node : FsyncNode),
    2 * th + fsync_node_bit node < f1 → 2 * th + fsync_node_bit node < f2 →
    fsync_partition_subtree f1 st idxs dir th node =
      fsync_partition_subtree f2 st idxs dir th node := by
  intro f1
  induction f1 with
  | zero => intro f2 st idxs dir th node h1 _; omega
  | succ g1 ih =>
    intro f2 st idxs dir th node h1 h2
    obtain ⟨g2, rfl⟩ : ∃ g2, f2 = g2 + 1 := ⟨f2 - 1, by omega⟩
    rw [fsync_partition_subtree, fsync_partition_subtree]
    unfold fsync_partition_subtree_body
    by_cases hth : th < 1
    · rw [if_pos hth, if_pos hth]
    · rw [if_neg hth, if_neg hth]
      cases node with
      | hv_fs_node =>
        rw [show fsync_node_bit FsyncNode.hv_fs_node = 1 from rfl] at h1 h2
        dsimp only
        repeat' split
        all_goals
          first
          | exact fsync_branch_body_congr _ _ _ _ _ _ _ _ _ _ _ _ _
              (fun st2 idxs2 => ih g2 st2 idxs2 FsyncDir.h_fs_dir th FsyncNode.h_fs_node
                (by rw [show fsync_node_bit FsyncNode.h_fs_node = 0 from rfl]; omega)
                (by rw [show fsync_node_bit FsyncNode.h_fs_node = 0 from rfl]; omega))
          | exact fsync_branch_body_congr _ _ _ _ _ _ _ _ _ _ _ _ _
              (fun st2 idxs2 => ih g2 st2 idxs2 FsyncDir.v_fs_dir th FsyncNode.v_fs_node
                (by rw [show fsync_node_bit FsyncNode.v_fs_node = 0 from rfl]; omega)
                (by rw [show fsync_node_bit FsyncNode.v_fs_node = 0 from rfl]; omega))
      | null_fs_node =>
        rw [show fsync_node_bit FsyncNode.null_fs_node = 0 from rfl] at h1 h2
        dsimp only
        repeat' split
        all_goals
          exact fsync_branch_body_congr _ _ _ _ _ _ _ _ _ _ _ _ _
            (fun st2 idxs2 => ih g2 st2 idxs2 dir (th / 2) FsyncNode.hv_fs_node
              (by rw [show fsync_node_bit FsyncNode.hv_fs_node = 1 from rfl]; omega)
              (by rw [show fsync_node_bit FsyncNode.hv_fs_node = 1 from rfl]; omega))
      | h_fs_node =>
        rw [show fsync_node_bit FsyncNode.h_fs_node = 0 from rfl] at h1 h2
        dsimp only
        repeat' split
        all_goals
          exact fsync_branch_body_congr _ _ _ _ _ _ _ _ _ _ _ _ _
            (fun st2 idxs2 => ih g2 st2 idxs2 dir (th / 2) FsyncNode.hv_fs_node
              (by rw [show fsync_node_bit FsyncNode.hv_fs_node = 1 from rfl]; omega)
              (by rw [show fsync_node_bit FsyncNode.hv_fs_node = 1 from rfl]; omega))
      | v_fs_node =>
        rw [show fsync_node_bit FsyncNode.v_fs_node = 0 from rfl] at h1 h2
        dsimp only
        repeat' split
        all_goals
          exact fsync_branch_body_congr _ _ _ _ _ _ _ _ _ _ _ _ _
            (fun st2 idxs2 => ih g2 st2 idxs2 dir (th / 2) FsyncNode.hv_fs_node
              (by rw [show fsync_node_bit FsyncNode.hv_fs_node = 1 from rfl]; omega)
              (by rw [show fsync_node_bit FsyncNode.hv_fs_node = 1 from rfl]; omega))

/-! ## List-level lemmas: reset, copy-back, entry point -/

theorem fsync_init_req_x_pos (c : FsyncCu) : (fsync_init_req c).x_pos = c.x_pos := rfl

theorem fsync_init_req_y_pos (c : FsyncCu) : (fsync_init_req c).y_pos = c.y_pos := rfl

theorem fsync_init_req_cu_id (c : FsyncCu) : (fsync_init_req c).cu_id = c.cu_id := rfl

theorem fsync_init_req_req (c : FsyncCu) : (fsync_init_req c).fsync_req = default_req := rfl

theorem fsync_init_reqs_length (cus : List FsyncCu) :
    (fsync_init_reqs cus).length = cus.length := by
  simp [fsync_init_reqs]

theorem fsync_init_reqs_getD (cus : List FsyncCu) (i : Nat) :
    (fsync_init_reqs cus).getD i default_fsync_cu =
      fsync_init_req (cus.getD i default_fsync_cu) := by
  induction cus generalizing i with
  | nil => cases i <;> rfl
  | cons c cs ih =>
    cases i with
    | zero => rfl
    | succ i =>
      show (fsync_init_reqs cs).getD i default_fsync_cu = _
      rw [ih i]
      rfl

theorem fsync_copy_reqs_length (cus : List FsyncCu) (st : Nat → FsyncCu) :
    ∀ k, (fsync_copy_reqs cus st k).length = cus.length := by
  induction cus with
  | nil => intro k; rfl
  | cons c cs ih => intro k; simp [fsync_copy_reqs, ih]

theorem fsync_copy_reqs_getD (cus : List FsyncCu) (st : Nat → FsyncCu) :
    ∀ k i, i < cus.length →
    (fsync_copy_reqs cus st k).getD i default_fsync_cu =
      { cus.getD i default_fsync_cu with fsync_req := (st (k + i)).fsync_req } := by
  induction cus with
  | nil => intro k i hi; simp at hi
  | cons c cs ih =>
    intro k i hi
    cases i with
    | zero => rfl
    | succ i =>
      show (fsync_copy_reqs cs st (k + 1)).getD i default_fsync_cu = _
      rw [ih (k + 1) i (by simpa using hi)]
      have : k + 1 + i = k + (i + 1) := by omega
      rw [this]
      rfl

theorem fsync_copy_reqs_getD_ge (cus : List FsyncCu) (st : Nat → FsyncCu) :
    ∀ k i, cus.length ≤ i →
    (fsync_copy_reqs cus st k).getD i default_fsync_cu = default_fsync_cu := by
  intro k i hi
  apply List.getD_eq_default
  rw [fsync_copy_reqs_length]
  exact hi

theorem fsync_gen_reqs_small (cus : List FsyncCu) (dd : FsyncDir)
    (h : cus.length < 2) : fsync_gen_reqs cus dd = (false, fsync_init_reqs cus) := by
  unfold fsync_gen_reqs
  rw [if_pos]
  rw [fsync_init_reqs_length]
  exact h

theorem fsync_gen_reqs_pair (a b : FsyncCu) (dd : FsyncDir) :
    fsync_gen_reqs [a, b] dd =
      ((fsync_gen_two (fsync_init_req a) (fsync_init_req b) dd).1,
       [(fsync_gen_two (fsync_init_req a) (fsync_init_req b) dd).2.1,
        (fsync_gen_two (fsync_init_req a) (fsync_init_req b) dd).2.2]) := by
  unfold fsync_gen_reqs
  rfl

theorem fsync_gen_reqs_many (cus : List FsyncCu) (dd : FsyncDir)
    (h : 2 < cus.length) :
    fsync_gen_reqs cus dd =
      ((fsync_partition_subtree (2 * __FSYNC_DEFAULT_TH__ + 2)
          (fun i => (fsync_init_reqs cus).getD i default_fsync_cu)
          (List.range cus.length) dd __FSYNC_DEFAULT_TH__ FsyncNode.hv_fs_node).1,
       fsync_copy_reqs (fsync_init_reqs cus)
         (fsync_partition_subtree (2 * __FSYNC_DEFAULT_TH__ + 2)
           (fun i => (fsync_init_reqs cus).getD i default_fsync_cu)
           (List.range cus.length) dd __FSYNC_DEFAULT_TH__ FsyncNode.hv_fs_node).2 0) := by
  unfold fsync_gen_reqs
  rw [if_neg (by rw [fsync_init_reqs_length]; omega),
    if_neg (by rw [fsync_init_reqs_length]; omega), fsync_init_reqs_length]

/-! ## Two-CU path characterizations -/

theorem fsync_gen_two_dist0 (a b : FsyncCu) (dd : FsyncDir)
    (h : abs_diff a.x_pos b.x_pos + abs_diff a.y_pos b.y_pos = 0) :
    fsync_gen_two a b dd = (false, a, b) := by
  unfold fsync_gen_two
  dsimp only
  rw [if_pos h]

theorem fsync_gen_two_dist1_x (a b : FsyncCu) (dd : FsyncDir)
    (hdx : abs_diff a.x_pos b.x_pos = 1) (hdy : abs_diff a.y_pos b.y_pos = 0) :
    fsync_gen_two a b dd =
      (true,
       { a with fsync_req :=
           ⟨1, if fsync_nbr_node a.x_pos b.x_pos then 2 else 0, FsyncNode.h_fs_node⟩ },
       { b with fsync_req :=
           ⟨1, if fsync_nbr_node a.x_pos b.x_pos then 2 else 0, FsyncNode.h_fs_node⟩ }) := by
  unfold fsync_gen_two
  dsimp only
  rw [hdx, hdy]
  rw [if_neg (by omega), if_pos (by omega)]
  have hdir : fsync_two_cu_dir 1 0 dd = FsyncDir.h_fs_dir := rfl
  have hnd : fsync_two_cu_node 1 0 = FsyncNode.h_fs_node := rfl
  rw [hdir, hnd, if_pos rfl]

theorem fsync_gen_two_dist1_y (a b : FsyncCu) (dd : FsyncDir)
    (hdx : abs_diff a.x_pos b.x_pos = 0) (hdy : abs_diff a.y_pos b.y_pos = 1) :
    fsync_gen_two a b dd =
      (true,
       { a with fsync_req :=
           ⟨1, if fsync_nbr_node a.y_pos b.y_pos then 3 else 1, FsyncNode.v_fs_node⟩ },
       { b with fsync_req :=
           ⟨1, if fsync_nbr_node a.y_pos b.y_pos then 3 else 1, FsyncNode.v_fs_node⟩ }) := by
  unfold fsync_gen_two
  dsimp only
  rw [hdx, hdy]
  rw [if_neg (by omega), if_pos (by omega)]
  have hdir : fsync_two_cu_dir 0 1 dd = FsyncDir.v_fs_dir := rfl
  have hnd : fsync_two_cu_node 0 1 = FsyncNode.v_fs_node := rfl
  rw [hdir, hnd, if_neg (by simp)]

theorem fsync_gen_two_far (a b : FsyncCu) (dd : FsyncDir)
    (hfar : 1 < abs_diff a.x_pos b.x_pos + abs_diff a.y_pos b.y_pos) :
    fsync_gen_two a b dd =
      (if 1 < fsync_hops_loop (__FSYNC_N_CU_X__ / 2 + __FSYNC_N_CU_Y__ / 2 + 1)
            a.x_pos b.x_pos (__FSYNC_N_CU_X__ / 2) a.y_pos b.y_pos (__FSYNC_N_CU_Y__ / 2)
            __FSYNC_N_LVL__ then
         if fsync_two_cu_dir (abs_diff a.x_pos b.x_pos) (abs_diff a.y_pos b.y_pos) dd =
             FsyncDir.h_fs_dir then
           (true,
            { a with fsync_req := ⟨1 <<< (fsync_hops_loop
                (__FSYNC_N_CU_X__ / 2 + __FSYNC_N_CU_Y__ / 2 + 1) a.x_pos b.x_pos
                (__FSYNC_N_CU_X__ / 2) a.y_pos b.y_pos (__FSYNC_N_CU_Y__ / 2)
                __FSYNC_N_LVL__ - 1), 0, FsyncNode.h_fs_node⟩ },
            { b with fsync_req := ⟨1 <<< (fsync_hops_loop
                (__FSYNC_N_CU_X__ / 2 + __FSYNC_N_CU_Y__ / 2 + 1) a.x_pos b.x_pos
                (__FSYNC_N_CU_X__ / 2) a.y_pos b.y_pos (__FSYNC_N_CU_Y__ / 2)
                __FSYNC_N_LVL__ - 1), 0, FsyncNode.h_fs_node⟩ })
         else
           (true,
            { a with fsync_req := ⟨1 <<< (fsync_hops_loop
                (__FSYNC_N_CU_X__ / 2 + __FSYNC_N_CU_Y__ / 2 + 1) a.x_pos b.x_pos
                (__FSYNC_N_CU_X__ / 2) a.y_pos b.y_pos (__FSYNC_N_CU_Y__ / 2)
                __FSYNC_N_LVL__ - 1), 1, FsyncNode.v_fs_node⟩ },
            { b with fsync_req := ⟨1 <<< (fsync_hops_loop
                (__FSYNC_N_CU_X__ / 2 + __FSYNC_N_CU_Y__ / 2 + 1) a.x_pos b.x_pos
                (__FSYNC_N_CU_X__ / 2) a.y_pos b.y_pos (__FSYNC_N_CU_Y__ / 2)
                __FSYNC_N_LVL__ - 1), 1, FsyncNode.v_fs_node⟩ })
       else
         (false,
          { a with fsync_req := { a.fsync_req with req_node :=
              (fsync_two_cu_node (abs_diff a.x_pos b.x_pos) (abs_diff a.y_pos b.y_pos)) } },
          { b with fsync_req := { b.fsync_req with req_node :=
              (fsync_two_cu_node (abs_diff a.x_pos b.x_pos) (abs_diff a.y_pos b.y_pos)) } })) := by
  unfold fsync_gen_two
  dsimp only
  rw [if_neg (by omega), if_neg (by omega)]

theorem fsync_gen_two_frame (a b : FsyncCu) (dd : FsyncDir) :
    ((fsync_gen_two a b dd).2.1.cu_id = a.cu_id ∧
     (fsync_gen_two a b dd).2.1.x_pos = a.x_pos ∧
     (fsync_gen_two a b dd).2.1.y_pos = a.y_pos) ∧
    ((fsync_gen_two a b dd).2.2.cu_id = b.cu_id ∧
     (fsync_gen_two a b dd).2.2.x_pos = b.x_pos ∧
     (fsync_gen_two a b dd).2.2.y_pos = b.y_pos) := by
  rcases Nat.lt_or_ge 1 (abs_diff a.x_pos b.x_pos + abs_diff a.y_pos b.y_pos) with hfar | hle
  · rw [fsync_gen_two_far a b dd hfar]
    split
    · split <;> exact ⟨⟨rfl, rfl, rfl⟩, rfl, rfl, rfl⟩
    · exact ⟨⟨rfl, rfl, rfl⟩, rfl, rfl, rfl⟩
  · have hcase : abs_diff a.x_pos b.x_pos + abs_diff a.y_pos b.y_pos = 0 ∨
        (abs_diff a.x_pos b.x_pos = 1 ∧ abs_diff a.y_pos b.y_pos = 0) ∨
        (abs_diff a.x_pos b.x_pos = 0 ∧ abs_diff a.y_pos b.y_pos = 1) := by omega
    rcases hcase with h0 | ⟨h1, h2⟩ | ⟨h1, h2⟩
    · rw [fsync_gen_two_dist0 a b dd h0]
      exact ⟨⟨rfl, rfl, rfl⟩, rfl, rfl, rfl⟩
    · rw [fsync_gen_two_dist1_x a b dd h1 h2]
      exact ⟨⟨rfl, rfl, rfl⟩, rfl, rfl, rfl⟩
    · rw [fsync_gen_two_dist1_y a b dd h1 h2]
      exact ⟨⟨rfl, rfl, rfl⟩, rfl, rfl, rfl⟩

/-! ## Small facts feeding the claims -/

theorem fsync_nbr_node_min (p1 p2 : Nat) :
    fsync_nbr_node p1 p2 = decide (min p1 p2 % 2 = 1) := by
  unfold fsync_nbr_node
  by_cases h : p1 < p2
  · rw [if_pos h, Nat.min_eq_left (le_of_lt h)]
  · rw [if_neg h, Nat.min_eq_right (le_of_not_lt h)]

theorem getD_mem_of_lt : ∀ (l : List FsyncCu) (i : Nat), i < l.length →
    l.getD i default_fsync_cu ∈ l := by
  intro l
  induction l with
  | nil => intro i hi; simp at hi
  | cons c cs ih =>
    intro i hi
    cases i with
    | zero => exact List.mem_cons_self _ _
    | succ i => exact List.mem_cons_of_mem _ (ih i (by simpa using hi))

/-! ## Claims -/

/-- C5: on exactly two CUs at Manhattan distance 1 the call succeeds, both
CUs receive identical request fields with aggregate 1, and the id is keyed by
the deciding axis and the parity of the smaller coordinate on that axis:
2 (Horizontal) / 3 (Vertical) when that coordinate is odd, else
0 (Horizontal) / 1 (Vertical). -/
theorem C5_neighbor_pair (a b : FsyncCu) (dd : FsyncDir)
    (hdist : abs_diff a.x_pos b.x_pos + abs_diff a.y_pos b.y_pos = 1) :
    (fsync_gen_reqs [a, b] dd).1 = true ∧
    ((fsync_gen_reqs [a, b] dd).2.getD 0 default_fsync_cu).fsync_req =
      ((fsync_gen_reqs [a, b] dd).2.getD 1 default_fsync_cu).fsync_req ∧
    ((fsync_gen_reqs [a, b] dd).2.getD 0 default_fsync_cu).fsync_req.fs_req_aggr = 1 ∧
    (abs_diff a.x_pos b.x_pos = 1 →
      ((fsync_gen_reqs [a, b] dd).2.getD 0 default_fsync_cu).fsync_req.req_node =
        FsyncNode.h_fs_node ∧
      ((fsync_gen_reqs [a, b] dd).2.getD 0 default_fsync_cu).fsync_req.fs_req_id =
        (if min a.x_pos b.x_pos % 2 = 1 then 2 else 0)) ∧
    (abs_diff a.y_pos b.y_pos = 1 →
      ((fsync_gen_reqs [a, b] dd).2.getD 0 default_fsync_cu).fsync_req.req_node =
        FsyncNode.v_fs_node ∧
      ((fsync_gen_reqs [a, b] dd).2.getD 0 default_fsync_cu).fsync_req.fs_req_id =
        (if min a.y_pos b.y_pos % 2 = 1 then 3 else 1)) := by
  rw [fsync_gen_reqs_pair]
  have hcase : (abs_diff a.x_pos b.x_pos = 1 ∧ abs_diff a.y_pos b.y_pos = 0) ∨
      (abs_diff a.x_pos b.x_pos = 0 ∧ abs_diff a.y_pos b.y_pos = 1) := by omega
  rcases hcase with ⟨h1, h2⟩ | ⟨h1, h2⟩
  · rw [fsync_gen_two_dist1_x (fsync_init_req a) (fsync_init_req b) dd h1 h2]
    dsimp only [List.getD_cons_zero, List.getD_cons_succ]
    refine ⟨rfl, rfl, rfl, fun _ => ⟨rfl, ?_⟩, fun hy => absurd hy (by omega)⟩
    show (if fsync_nbr_node (fsync_init_req a).x_pos (fsync_init_req b).x_pos then 2 else 0) = _
    rw [show (fsync_init_req a).x_pos = a.x_pos from rfl,
      show (fsync_init_req b).x_pos = b.x_pos from rfl, fsync_nbr_node_min]
    simp
  · rw [fsync_gen_two_dist1_y (fsync_init_req a) (fsync_init_req b) dd h1 h2]
    dsimp only [List.getD_cons_zero, List.getD_cons_succ]
    refine ⟨rfl, rfl, rfl, fun hx => absurd hx (by omega), fun _ => ⟨rfl, ?_⟩⟩
    show (if fsync_nbr_node (fsync_init_req a).y_pos (fsync_init_req b).y_pos then 3 else 1) = _
    rw [show (fsync_init_req a).y_pos = a.y_pos from rfl,
      show (fsync_init_req b).y_pos = b.y_pos from rfl, fsync_nbr_node_min]
    simp

/-- Witness for C5 at the neighbor pair (x,y) = (2,1) and (1,1): the smaller
x coordinate is 1 (odd), so both CUs get id 2, node Horizontal, aggregate 1. -/
theorem C5_neighbor_pair_witness :
    (fsync_gen_reqs [⟨0, 1, 2, default_req⟩, ⟨1, 1, 1, default_req⟩]
      FsyncDir.h_fs_dir).1 = true :=
  (C5_neighbor_pair ⟨0, 1, 2, default_req⟩ ⟨1, 1, 1, default_req⟩
    FsyncDir.h_fs_dir (by decide)).1

/-- C9: the generator returns false on degenerate input — fewer than two CUs,
a pair at identical coordinates, and a far pair whose computed hop counter is
non-positive (zero in unsigned arithmetic). -/
theorem C9_degenerate_false :
    (∀ (cus : List FsyncCu) (dd : FsyncDir), cus.length < 2 →
      (fsync_gen_reqs cus dd).1 = false) ∧
    (∀ (a b : FsyncCu) (dd : FsyncDir),
      abs_diff a.x_pos b.x_pos = 0 → abs_diff a.y_pos b.y_pos = 0 →
      (fsync_gen_reqs [a, b] dd).1 = false) ∧
    (∀ (a b : FsyncCu) (dd : FsyncDir),
      1 < abs_diff a.x_pos b.x_pos + abs_diff a.y_pos b.y_pos →
      fsync_hops_loop (__FSYNC_N_CU_X__ / 2 + __FSYNC_N_CU_Y__ / 2 + 1)
        a.x_pos b.x_pos (__FSYNC_N_CU_X__ / 2) a.y_pos b.y_pos
        (__FSYNC_N_CU_Y__ / 2) __FSYNC_N_LVL__ = 0 →
      (fsync_gen_reqs [a, b] dd).1 = false) := by
  refine ⟨?_, ?_, ?_⟩
  · intro cus dd h
    rw [fsync_gen_reqs_small cus dd h]
  · intro a b dd hx hy
    rw [fsync_gen_reqs_pair,
      fsync_gen_two_dist0 (fsync_init_req a) (fsync_init_req b) dd
        (show abs_diff a.x_pos b.x_pos + abs_diff a.y_pos b.y_pos = 0 by omega)]
  · intro a b dd hfar h0
    rw [fsync_gen_reqs_pair,
      fsync_gen_two_far (fsync_init_req a) (fsync_init_req b) dd hfar]
    dsimp only
    rw [if_neg]
    simp only [fsync_init_req_x_pos, fsync_init_req_y_pos]
    omega

/-- Witness for C9 at the coincident pair (3,3),(3,3). -/
theorem C9_degenerate_false_witness :
    (fsync_gen_reqs [⟨0, 3, 3, default_req⟩, ⟨1, 3, 3, default_req⟩]
      FsyncDir.v_fs_dir).1 = false :=
  C9_degenerate_false.2.1 ⟨0, 3, 3, default_req⟩ ⟨1, 3, 3, default_req⟩
    FsyncDir.v_fs_dir (by decide) (by decide)

/-- C7: three or more CUs that all occupy one grid position make the call
fail and leave every aggregate zero — no axis ever splits the subset, so all
recorded bits are zero and no request field is written. -/
theorem C7_coincident_cus (cus : List FsyncCu) (dd : FsyncDir) (x y : Nat)
    (hlen : 3 ≤ cus.length)
    (hall : ∀ c ∈ cus, c.x_pos = x ∧ c.y_pos = y) :
    (fsync_gen_reqs cus dd).1 = false ∧
    ∀ i, ((fsync_gen_reqs cus dd).2.getD i default_fsync_cu).fsync_req.fs_req_aggr = 0 := by
  rw [fsync_gen_reqs_many cus dd (by omega)]
  have hallst : ∀ j ∈ List.range cus.length,
      ((fun i => (fsync_init_reqs cus).getD i default_fsync_cu) j).x_pos = x ∧
      ((fun i => (fsync_init_reqs cus).getD i default_fsync_cu) j).y_pos = y := by
    intro j hj
    rw [List.mem_range] at hj
    have hmem := getD_mem_of_lt cus j hj
    have := hall _ hmem
    dsimp only
    rw [fsync_init_reqs_getD, fsync_init_req_x_pos, fsync_init_req_y_pos]
    exact this
  have hflag := fsync_partition_subtree_alleq_false (2 * __FSYNC_DEFAULT_TH__ + 2)
    (fun i => (fsync_init_reqs cus).getD i default_fsync_cu)
    (List.range cus.length) dd __FSYNC_DEFAULT_TH__ FsyncNode.hv_fs_node x y hallst
  refine ⟨hflag, ?_⟩
  intro i
  by_cases hi : i < cus.length
  · rw [fsync_copy_reqs_getD (fsync_init_reqs cus) _ 0 i
      (by rw [fsync_init_reqs_length]; exact hi)]
    have hdef := fsync_partition_subtree_false_default (2 * __FSYNC_DEFAULT_TH__ + 2)
      (fun i => (fsync_init_reqs cus).getD i default_fsync_cu)
      (List.range cus.length) dd __FSYNC_DEFAULT_TH__ FsyncNode.hv_fs_node hflag
      i (by rw [List.mem_range]; exact hi)
      (by dsimp only; rw [fsync_init_reqs_getD, fsync_init_req_req])
    show ((fsync_partition_subtree _ _ _ _ _ _).2 (0 + i)).fsync_req.fs_req_aggr = 0
    rw [Nat.zero_add, hdef]
    rfl
  · rw [fsync_copy_reqs_getD_ge (fsync_init_reqs cus) _ 0 i
      (by rw [fsync_init_reqs_length]; omega)]
    rfl

/-- Witness for C7: three CUs stacked at (2,2). -/
theorem C7_coincident_cus_witness :
    (fsync_gen_reqs [⟨0, 2, 2, default_req⟩, ⟨1, 2, 2, default_req⟩,
      ⟨2, 2, 2, default_req⟩] FsyncDir.h_fs_dir).1 = false :=
  (C7_coincident_cus [⟨0, 2, 2, default_req⟩, ⟨1, 2, 2, default_req⟩,
    ⟨2, 2, 2, default_req⟩] FsyncDir.h_fs_dir 2 2 (by decide) (by decide)).1

/-- On the configured 4×4 grid, a far pair (Manhattan distance at least 2)
always keeps a hop counter of at least 2: checked over all 256 coordinate
combinations. -/
theorem in_grid_far_hops (x0 y0 x1 y1 : Nat) (hx0 : x0 < __FSYNC_N_CU_X__)
    (hy0 : y0 < __FSYNC_N_CU_Y__) (hx1 : x1 < __FSYNC_N_CU_X__)
    (hy1 : y1 < __FSYNC_N_CU_Y__)
    (hfar : 1 < abs_diff x0 x1 + abs_diff y0 y1) :
    1 < fsync_hops_loop (__FSYNC_N_CU_X__ / 2 + __FSYNC_N_CU_Y__ / 2 + 1)
      x0 x1 (__FSYNC_N_CU_X__ / 2) y0 y1 (__FSYNC_N_CU_Y__ / 2) __FSYNC_N_LVL__ := by
  have H : ∀ a < 4, ∀ b < 4, ∀ c < 4, ∀ d < 4, 1 < abs_diff a c + abs_diff b d →
      1 < fsync_hops_loop 5 a c 2 b d 2 4 := by decide
  exact H x0 hx0 y0 hy0 x1 hx1 y1 hy1 hfar

/-- C1 counterexample: the claim quantifies over every input list, but the
two-CU far path writes the node classification (lines 176-185) before the hop
test, so a failing far pair leaves `node` set.  On the 4×4 configuration this
is reachable for type-valid, out-of-grid coordinates: the pair (4,0),(6,0)
exhausts the hop counter (hops = 0), returns false, yet both CUs end with
node = Horizontal instead of the reset default None. -/
theorem C1_claim_counterexample :
    (fsync_gen_reqs [⟨0, 0, 4, default_req⟩, ⟨1, 0, 6, default_req⟩]
      FsyncDir.h_fs_dir).1 = false ∧
    ((fsync_gen_reqs [⟨0, 0, 4, default_req⟩, ⟨1, 0, 6, default_req⟩]
        FsyncDir.h_fs_dir).2.getD 0 default_fsync_cu).fsync_req.req_node ≠
      FsyncNode.null_fs_node := by
  decide

/-- C1 amended: restricted to CUs whose coordinates lie inside the configured
4×4 grid, whenever `fsync_gen_reqs` returns false (allocation failure is not
modelled) every CU in the caller's array ends the call at the reset defaults
(aggregate 0, id 0, node None).  For out-of-grid coordinates the failing far
pair of the counterexample leaves the node classification behind. -/
theorem C1_in_grid_false_defaults (cus : List FsyncCu) (dd : FsyncDir)
    (hgrid : ∀ c ∈ cus, c.x_pos < __FSYNC_N_CU_X__ ∧ c.y_pos < __FSYNC_N_CU_Y__)
    (hfail : (fsync_gen_reqs cus dd).1 = false) :
    ∀ i, ((fsync_gen_reqs cus dd).2.getD i default_fsync_cu).fsync_req = default_req := by
  intro i
  rcases Nat.lt_or_ge cus.length 2 with hsmall | h2
  · rw [fsync_gen_reqs_small cus dd hsmall]
    show ((fsync_init_reqs cus).getD i default_fsync_cu).fsync_req = default_req
    rw [fsync_init_reqs_getD, fsync_init_req_req]
  · rcases Nat.lt_or_ge 2 cus.length with hmany | hle2
    · -- engine path: an overall failure leaves every reset request untouched
      rw [fsync_gen_reqs_many cus dd hmany] at hfail ⊢
      by_cases hi : i < cus.length
      · rw [fsync_copy_reqs_getD (fsync_init_reqs cus) _ 0 i
          (by rw [fsync_init_reqs_length]; exact hi)]
        have hdef := fsync_partition_subtree_false_default (2 * __FSYNC_DEFAULT_TH__ + 2)
          (fun j => (fsync_init_reqs cus).getD j default_fsync_cu)
          (List.range cus.length) dd __FSYNC_DEFAULT_TH__ FsyncNode.hv_fs_node hfail
          i (by rw [List.mem_range]; exact hi)
          (by dsimp only; rw [fsync_init_reqs_getD, fsync_init_req_req])
        show ((fsync_partition_subtree _ _ _ _ _ _).2 (0 + i)).fsync_req = default_req
        rw [Nat.zero_add, hdef]
      · rw [fsync_copy_reqs_getD_ge (fsync_init_reqs cus) _ 0 i
          (by rw [fsync_init_reqs_length]; omega)]
        rfl
    · -- exactly two CUs
      have hlen2 : cus.length = 2 := by omega
      obtain ⟨a, b, rfl⟩ := List.length_eq_two.1 hlen2
      have hga := hgrid a (by simp)
      have hgb := hgrid b (by simp)
      rw [fsync_gen_reqs_pair] at hfail ⊢
      rcases Nat.lt_or_ge 1 (abs_diff a.x_pos b.x_pos + abs_diff a.y_pos b.y_pos)
        with hfar | hnear
      · -- far pair inside the grid: the hop counter stays above 1, success
        rw [fsync_gen_two_far (fsync_init_req a) (fsync_init_req b) dd hfar] at hfail
        rw [if_pos] at hfail
        · split at hfail <;> simp at hfail
        · simp only [fsync_init_req_x_pos, fsync_init_req_y_pos]
          exact in_grid_far_hops a.x_pos a.y_pos b.x_pos b.y_pos
            hga.1 hga.2 hgb.1 hgb.2 hfar
      · have hcase : (abs_diff a.x_pos b.x_pos + abs_diff a.y_pos b.y_pos = 0) ∨
            (abs_diff a.x_pos b.x_pos = 1 ∧ abs_diff a.y_pos b.y_pos = 0) ∨
            (abs_diff a.x_pos b.x_pos = 0 ∧ abs_diff a.y_pos b.y_pos = 1) := by omega
        rcases hcase with h0 | ⟨h1, hzero⟩ | ⟨hzero, h1⟩
        · rw [fsync_gen_two_dist0 (fsync_init_req a) (fsync_init_req b) dd h0]
          match i with
          | 0 => rfl
          | 1 => rfl
          | (n + 2) => rfl
        · rw [fsync_gen_two_dist1_x (fsync_init_req a) (fsync_init_req b) dd h1 hzero]
            at hfail
          simp at hfail
        · rw [fsync_gen_two_dist1_y (fsync_init_req a) (fsync_init_req b) dd hzero h1]
            at hfail
          simp at hfail

/-- Witness for the amended C1: two CUs stacked at (1,0) inside the grid
fail and stay at the reset defaults. -/
theorem C1_in_grid_false_defaults_witness :
    (fsync_gen_reqs [⟨0, 0, 1, default_req⟩, ⟨1, 0, 1, default_req⟩]
      FsyncDir.h_fs_dir).1 = false ∧
    ((fsync_gen_reqs [⟨0, 0, 1, default_req⟩, ⟨1, 0, 1, default_req⟩]
        FsyncDir.h_fs_dir).2.getD 0 default_fsync_cu).fsync_req = default_req :=
  ⟨by decide,
   C1_in_grid_false_defaults [⟨0, 0, 1, default_req⟩, ⟨1, 0, 1, default_req⟩]
     FsyncDir.h_fs_dir (by decide) (by decide) 0⟩

theorem fsync_two_cu_dir_x (x y : Nat) (dd : FsyncDir) (h : y < x) :
    fsync_two_cu_dir x y dd = FsyncDir.h_fs_dir := by
  unfold fsync_two_cu_dir; rw [if_pos h]

theorem fsync_two_cu_dir_y (x y : Nat) (dd : FsyncDir) (h : x < y) :
    fsync_two_cu_dir x y dd = FsyncDir.v_fs_dir := by
  unfold fsync_two_cu_dir; rw [if_neg (by omega), if_neg (by omega)]

theorem fsync_two_cu_dir_tie (x y : Nat) (dd : FsyncDir) (h : x = y) :
    fsync_two_cu_dir x y dd = dd := by
  unfold fsync_two_cu_dir; rw [if_neg (by omega), if_pos h]

/-- On a successful far pair, id and node of both CUs are keyed by the
resolved direction (larger per-axis distance, default direction on ties). -/
theorem fsync_gen_reqs_far_fields (a b : FsyncCu) (dd : FsyncDir)
    (hfar : 1 < abs_diff a.x_pos b.x_pos + abs_diff a.y_pos b.y_pos)
    (hsucc : (fsync_gen_reqs [a, b] dd).1 = true) :
    ((fsync_gen_reqs [a, b] dd).2.getD 0 default_fsync_cu).fsync_req.req_node =
      (if fsync_two_cu_dir (abs_diff a.x_pos b.x_pos) (abs_diff a.y_pos b.y_pos) dd =
          FsyncDir.h_fs_dir then FsyncNode.h_fs_node else FsyncNode.v_fs_node) ∧
    ((fsync_gen_reqs [a, b] dd).2.getD 0 default_fsync_cu).fsync_req.fs_req_id =
      (if fsync_two_cu_dir (abs_diff a.x_pos b.x_pos) (abs_diff a.y_pos b.y_pos) dd =
          FsyncDir.h_fs_dir then 0 else 1) := by
  rw [fsync_gen_reqs_pair] at hsucc ⊢
  rw [fsync_gen_two_far (fsync_init_req a) (fsync_init_req b) dd hfar] at hsucc ⊢
  simp only [fsync_init_req_x_pos, fsync_init_req_y_pos] at hsucc ⊢
  by_cases h1 : 1 < fsync_hops_loop (__FSYNC_N_CU_X__ / 2 + __FSYNC_N_CU_Y__ / 2 + 1)
      a.x_pos b.x_pos (__FSYNC_N_CU_X__ / 2) a.y_pos b.y_pos (__FSYNC_N_CU_Y__ / 2)
      __FSYNC_N_LVL__
  · rw [if_pos h1]
    split <;> exact ⟨rfl, rfl⟩
  · rw [if_neg h1] at hsucc
    simp at hsucc

/-- C2 counterexample: the pair (0,0),(2,0).  The x axis diverges at once
while the y axis could take two independent halving steps, but the code's
lockstep loop grants it only the one step of the round in which x stalls: the
code's hop counter is 3 (aggregate 4), whereas the claim's
independently-walked hop counter (`spec_indep_hops`) is 2, which would give
aggregate 2. -/
theorem C2_claim_counterexample :
    1 < abs_diff (0 : Nat) 2 + abs_diff (0 : Nat) 0 ∧
    (fsync_gen_reqs [⟨0, 0, 0, default_req⟩, ⟨1, 0, 2, default_req⟩]
      FsyncDir.h_fs_dir).1 = true ∧
    ((fsync_gen_reqs [⟨0, 0, 0, default_req⟩, ⟨1, 0, 2, default_req⟩]
        FsyncDir.h_fs_dir).2.getD 0 default_fsync_cu).fsync_req.fs_req_aggr ≠
      1 <<< (spec_indep_hops 0 2 0 0 - 1) := by
  decide

/-- C2 amended: the two-CU far path walks the axes in lockstep — each round
tries one x step then one y step, and a round in which either axis stalls is
the last (the other axis still taking that round's step).  With `sx`, `sy`
the independent per-axis step counts, the loop therefore subtracts
`min sx (sy+1) + min sy (sx+1)` from `__FSYNC_N_LVL__`; the call succeeds iff
the result exceeds 1, and then both CUs share one request with aggregate
`1 <<< (hops − 1)` and id/node keyed by the resolved direction (default
direction on a distance tie). -/
theorem C2_far_pair_lockstep (a b : FsyncCu) (dd : FsyncDir) (sx sy : Nat)
    (hfar : 1 < abs_diff a.x_pos b.x_pos + abs_diff a.y_pos b.y_pos)
    (hsx : sx = fsync_axis_steps (__FSYNC_N_CU_X__ / 2 + 1) a.x_pos b.x_pos
      (__FSYNC_N_CU_X__ / 2))
    (hsy : sy = fsync_axis_steps (__FSYNC_N_CU_Y__ / 2 + 1) a.y_pos b.y_pos
      (__FSYNC_N_CU_Y__ / 2)) :
    (fsync_gen_reqs [a, b] dd).1 =
      decide (1 < __FSYNC_N_LVL__ - (min sx (sy + 1) + min sy (sx + 1))) ∧
    (1 < __FSYNC_N_LVL__ - (min sx (sy + 1) + min sy (sx + 1)) →
      ((fsync_gen_reqs [a, b] dd).2.getD 0 default_fsync_cu).fsync_req =
        ((fsync_gen_reqs [a, b] dd).2.getD 1 default_fsync_cu).fsync_req ∧
      ((fsync_gen_reqs [a, b] dd).2.getD 0 default_fsync_cu).fsync_req.fs_req_aggr =
        1 <<< (__FSYNC_N_LVL__ - (min sx (sy + 1) + min sy (sx + 1)) - 1) ∧
      ((fsync_gen_reqs [a, b] dd).2.getD 0 default_fsync_cu).fsync_req.req_node =
        (if fsync_two_cu_dir (abs_diff a.x_pos b.x_pos) (abs_diff a.y_pos b.y_pos) dd =
            FsyncDir.h_fs_dir then FsyncNode.h_fs_node else FsyncNode.v_fs_node) ∧
      ((fsync_gen_reqs [a, b] dd).2.getD 0 default_fsync_cu).fsync_req.fs_req_id =
        (if fsync_two_cu_dir (abs_diff a.x_pos b.x_pos) (abs_diff a.y_pos b.y_pos) dd =
            FsyncDir.h_fs_dir then 0 else 1)) := by
  subst hsx
  subst hsy
  rw [fsync_gen_reqs_pair,
    fsync_gen_two_far (fsync_init_req a) (fsync_init_req b) dd hfar]
  simp only [fsync_init_req_x_pos, fsync_init_req_y_pos]
  have hloop := fsync_hops_loop_eq (__FSYNC_N_CU_X__ / 2 + __FSYNC_N_CU_Y__ / 2 + 1)
    a.x_pos b.x_pos (__FSYNC_N_CU_X__ / 2) a.y_pos b.y_pos (__FSYNC_N_CU_Y__ / 2)
    __FSYNC_N_LVL__ (by decide)
  rw [hloop]
  by_cases h1 : 1 < __FSYNC_N_LVL__ -
      (min (fsync_axis_steps (__FSYNC_N_CU_X__ / 2 + 1) a.x_pos b.x_pos
          (__FSYNC_N_CU_X__ / 2))
        (fsync_axis_steps (__FSYNC_N_CU_Y__ / 2 + 1) a.y_pos b.y_pos
          (__FSYNC_N_CU_Y__ / 2) + 1) +
       min (fsync_axis_steps (__FSYNC_N_CU_Y__ / 2 + 1) a.y_pos b.y_pos
          (__FSYNC_N_CU_Y__ / 2))
        (fsync_axis_steps (__FSYNC_N_CU_X__ / 2 + 1) a.x_pos b.x_pos
          (__FSYNC_N_CU_X__ / 2) + 1))
  · rw [if_pos h1]
    constructor
    · split <;> simp [h1]
    · intro _
      split <;> exact ⟨rfl, rfl, rfl, rfl⟩
  · rw [if_neg h1]
    exact ⟨by simp [h1], fun hcontra => absurd hcontra h1⟩

/-- Witness for the amended C2 at the pair (0,0),(2,0): sx = 0, sy = 2, so
the lockstep total is min 0 3 + min 2 1 = 1 and the code's hop counter is 3. -/
theorem C2_far_pair_lockstep_witness :
    (fsync_gen_reqs [⟨0, 0, 0, default_req⟩, ⟨1, 0, 2, default_req⟩]
      FsyncDir.h_fs_dir).1 =
      decide (1 < __FSYNC_N_LVL__ - (min 0 (2 + 1) + min 2 (0 + 1))) :=
  (C2_far_pair_lockstep ⟨0, 0, 0, default_req⟩ ⟨1, 0, 2, default_req⟩
    FsyncDir.h_fs_dir 0 2 (by decide) (by decide) (by decide)).1

/-- C8 counterexample: the diagonal pair (0,0),(1,1) has dx = dy = 1, reaches
the far branch (distance 2) and succeeds, so its id/node are assigned in that
branch via the `defaultDirection` tie-break — "ties do not occur" is false. -/
theorem C8_claim_counterexample :
    abs_diff (0 : Nat) 1 = 1 ∧ abs_diff (0 : Nat) 1 = 1 ∧
    1 < abs_diff (0 : Nat) 1 + abs_diff (0 : Nat) 1 ∧
    (fsync_gen_reqs [⟨0, 0, 0, default_req⟩, ⟨1, 1, 1, default_req⟩]
      FsyncDir.h_fs_dir).1 = true ∧
    ((fsync_gen_reqs [⟨0, 0, 0, default_req⟩, ⟨1, 1, 1, default_req⟩]
        FsyncDir.h_fs_dir).2.getD 0 default_fsync_cu).fsync_req.req_node =
      FsyncNode.h_fs_node := by
  decide

/-- C8 amended: in the far two-CU branch, the assigned id/node are decided by
the axis with strictly larger per-axis distance when dx ≠ dy; when dx = dy
(which does occur in this branch) they are decided by the caller's
`defaultDirection`. -/
theorem C8_far_pair_tiebreak (a b : FsyncCu) (dd : FsyncDir)
    (hfar : 1 < abs_diff a.x_pos b.x_pos + abs_diff a.y_pos b.y_pos)
    (hsucc : (fsync_gen_reqs [a, b] dd).1 = true) :
    (abs_diff a.y_pos b.y_pos < abs_diff a.x_pos b.x_pos →
      ((fsync_gen_reqs [a, b] dd).2.getD 0 default_fsync_cu).fsync_req.req_node =
        FsyncNode.h_fs_node ∧
      ((fsync_gen_reqs [a, b] dd).2.getD 0 default_fsync_cu).fsync_req.fs_req_id = 0) ∧
    (abs_diff a.x_pos b.x_pos < abs_diff a.y_pos b.y_pos →
      ((fsync_gen_reqs [a, b] dd).2.getD 0 default_fsync_cu).fsync_req.req_node =
        FsyncNode.v_fs_node ∧
      ((fsync_gen_reqs [a, b] dd).2.getD 0 default_fsync_cu).fsync_req.fs_req_id = 1) ∧
    (abs_diff a.x_pos b.x_pos = abs_diff a.y_pos b.y_pos →
      (dd = FsyncDir.h_fs_dir →
        ((fsync_gen_reqs [a, b] dd).2.getD 0 default_fsync_cu).fsync_req.req_node =
          FsyncNode.h_fs_node ∧
        ((fsync_gen_reqs [a, b] dd).2.getD 0 default_fsync_cu).fsync_req.fs_req_id = 0) ∧
      (dd = FsyncDir.v_fs_dir →
        ((fsync_gen_reqs [a, b] dd).2.getD 0 default_fsync_cu).fsync_req.req_node =
          FsyncNode.v_fs_node ∧
        ((fsync_gen_reqs [a, b] dd).2.getD 0 default_fsync_cu).fsync_req.fs_req_id = 1)) := by
  obtain ⟨hnode, hid⟩ := fsync_gen_reqs_far_fields a b dd hfar hsucc
  refine ⟨?_, ?_, ?_⟩
  · intro h
    rw [hnode, hid, fsync_two_cu_dir_x _ _ dd h]
    exact ⟨by rw [if_pos rfl], by rw [if_pos rfl]⟩
  · intro h
    rw [hnode, hid, fsync_two_cu_dir_y _ _ dd h]
    exact ⟨by rw [if_neg (by simp)], by rw [if_neg (by simp)]⟩
  · intro h
    rw [hnode, hid, fsync_two_cu_dir_tie _ _ dd h]
    constructor
    · intro hdd
      rw [hdd]
      exact ⟨by rw [if_pos rfl], by rw [if_pos rfl]⟩
    · intro hdd
      rw [hdd]
      exact ⟨by rw [if_neg (by simp)], by rw [if_neg (by simp)]⟩

/-- Witness for the amended C8 at (0,3),(3,3): dx = 3, dy = 0, the x axis
decides. -/
theorem C8_far_pair_tiebreak_witness :
    ((fsync_gen_reqs [⟨0, 3, 0, default_req⟩, ⟨1, 3, 3, default_req⟩]
        FsyncDir.v_fs_dir).2.getD 0 default_fsync_cu).fsync_req.req_node =
      FsyncNode.h_fs_node ∧
    ((fsync_gen_reqs [⟨0, 3, 0, default_req⟩, ⟨1, 3, 3, default_req⟩]
        FsyncDir.v_fs_dir).2.getD 0 default_fsync_cu).fsync_req.fs_req_id = 0 :=
  (C8_far_pair_tiebreak ⟨0, 3, 0, default_req⟩ ⟨1, 3, 3, default_req⟩
    FsyncDir.v_fs_dir (by decide) (by decide)).1 (by decide)

/-- C4 counterexample: for the diagonal pair (0,0),(1,1) with default
direction Horizontal, the classification step (source lines 176-185, modelled
by `fsync_two_cu_node`) first writes node = Both (hv) to both CUs — a
non-None value — and the far branch (lines 227-233) then overwrites it with
Horizontal: the node field of a single call changes after becoming non-None,
so "never changed again once it is non-None" fails on the two-CU fast path. -/
theorem C4_claim_counterexample :
    fsync_two_cu_node (abs_diff (0 : Nat) 1) (abs_diff (0 : Nat) 1) =
      FsyncNode.hv_fs_node ∧
    FsyncNode.hv_fs_node ≠ FsyncNode.null_fs_node ∧
    ((fsync_gen_reqs [⟨0, 0, 0, default_req⟩, ⟨1, 1, 1, default_req⟩]
        FsyncDir.h_fs_dir).2.getD 0 default_fsync_cu).fsync_req.req_node =
      FsyncNode.h_fs_node ∧
    FsyncNode.h_fs_node ≠ FsyncNode.hv_fs_node := by
  decide

/-- C4 amended: below the entry point the Partition Engine preserves every
non-None node field ("first write wins" holds on the N ≥ 3 path); the
exception is the two-CU far path, where the classification's first write
(Both when dx = dy) is subsequently overwritten with the default direction's
axis kind. -/
theorem C4_node_first_write :
    (∀ (fuel : Nat) (st : Nat → FsyncCu) (idxs : List Nat) (dir : FsyncDir)
      (th : Nat) (node : FsyncNode) (i : Nat),
      (st i).fsync_req.req_node ≠ FsyncNode.null_fs_node →
      ((fsync_partition_subtree fuel st idxs dir th node).2 i).fsync_req.req_node =
        (st i).fsync_req.req_node) ∧
    (∀ (a b : FsyncCu) (dd : FsyncDir),
      1 < abs_diff a.x_pos b.x_pos + abs_diff a.y_pos b.y_pos →
      (fsync_gen_reqs [a, b] dd).1 = true →
      abs_diff a.x_pos b.x_pos = abs_diff a.y_pos b.y_pos →
      fsync_two_cu_node (abs_diff a.x_pos b.x_pos) (abs_diff a.y_pos b.y_pos) =
        FsyncNode.hv_fs_node ∧
      ((fsync_gen_reqs [a, b] dd).2.getD 0 default_fsync_cu).fsync_req.req_node =
        (if dd = FsyncDir.h_fs_dir then FsyncNode.h_fs_node else FsyncNode.v_fs_node)) := by
  refine ⟨fsync_partition_subtree_node_pres, ?_⟩
  intro a b dd hfar hsucc htie
  obtain ⟨hnode, _⟩ := fsync_gen_reqs_far_fields a b dd hfar hsucc
  constructor
  · unfold fsync_two_cu_node
    rw [if_neg (by omega), if_pos htie]
  · rw [hnode, fsync_two_cu_dir_tie _ _ dd htie]

/-- Witness for the amended C4 at the tied pair (0,0),(1,1) with default
direction Horizontal. -/
theorem C4_node_first_write_witness :
    fsync_two_cu_node (abs_diff (0 : Nat) 1) (abs_diff (0 : Nat) 1) =
      FsyncNode.hv_fs_node ∧
    ((fsync_gen_reqs [⟨0, 0, 0, default_req⟩, ⟨1, 1, 1, default_req⟩]
        FsyncDir.v_fs_dir).2.getD 0 default_fsync_cu).fsync_req.req_node =
      (if FsyncDir.v_fs_dir = FsyncDir.h_fs_dir then FsyncNode.h_fs_node
       else FsyncNode.v_fs_node) :=
  C4_node_first_write.2 ⟨0, 0, 0, default_req⟩ ⟨1, 1, 1, default_req⟩
    FsyncDir.v_fs_dir (by decide) (by decide) (by decide)

/-- C3 counterexample: three CUs at (0,0), (3,3), (0,3) make the root
combined node jointly active (both axes split), and all three CUs' node
fields are first set there.  The engine records `req_node := node` — the
recording node's own kind, which is Both (`hv_fs_node`) at a combined node —
not "Horizontal or Vertical per the deciding axis" as the claim states. -/
theorem C3_claim_counterexample :
    ((fsync_gen_reqs [⟨0, 0, 0, default_req⟩, ⟨1, 3, 3, default_req⟩,
        ⟨2, 3, 0, default_req⟩] FsyncDir.h_fs_dir).2.getD 0
        default_fsync_cu).fsync_req.req_node = FsyncNode.hv_fs_node ∧
    FsyncNode.hv_fs_node ≠ FsyncNode.h_fs_node ∧
    FsyncNode.hv_fs_node ≠ FsyncNode.v_fs_node := by
  decide

/-- C3 amended: recording a contribution appends one bit to the aggregate
(shift left, then OR in 1 iff the node is active) and, only when the node
field is still None AND the node is active, writes the recording node's own
kind — Horizontal, Vertical, or Both at a combined node — and the
direction-keyed id (0 for Horizontal direction, 1 for Vertical); otherwise id
and node are left unchanged. -/
theorem C3_record_contribution (idxs : List Nat) (dir : FsyncDir) (node : FsyncNode)
    (act : Bool) (st : Nat → FsyncCu) (i : Nat) (hi : i ∈ idxs) :
    (fsync_update_cus_req idxs dir node act st i).fsync_req.fs_req_aggr =
      2 * (st i).fsync_req.fs_req_aggr + (if act then 1 else 0) ∧
    ((st i).fsync_req.req_node = FsyncNode.null_fs_node ∧ act = true →
      (fsync_update_cus_req idxs dir node act st i).fsync_req.req_node = node ∧
      (fsync_update_cus_req idxs dir node act st i).fsync_req.fs_req_id =
        (if dir = FsyncDir.h_fs_dir then 0 else 1)) ∧
    (¬((st i).fsync_req.req_node = FsyncNode.null_fs_node ∧ act = true) →
      (fsync_update_cus_req idxs dir node act st i).fsync_req.req_node =
        (st i).fsync_req.req_node ∧
      (fsync_update_cus_req idxs dir node act st i).fsync_req.fs_req_id =
        (st i).fsync_req.fs_req_id) := by
  rw [fsync_update_cus_req_mem dir node act st hi]
  unfold fsync_update_cu_req
  dsimp only
  by_cases hc : (st i).fsync_req.req_node = FsyncNode.null_fs_node ∧ act = true
  · rw [if_pos hc]
    exact ⟨rfl, fun _ => ⟨rfl, rfl⟩, fun hn => absurd hc hn⟩
  · rw [if_neg hc]
    exact ⟨rfl, fun hyes => absurd hyes hc, fun _ => ⟨rfl, rfl⟩⟩

/-- Witness for the amended C3: recording at an active combined node on a CU
whose node is still None writes Both (hv), per the recording node's kind. -/
theorem C3_record_contribution_witness :
    (fsync_update_cus_req [0] FsyncDir.h_fs_dir FsyncNode.hv_fs_node true
        (fun _ => default_fsync_cu) 0).fsync_req.req_node = FsyncNode.hv_fs_node :=
  ((C3_record_contribution [0] FsyncDir.h_fs_dir FsyncNode.hv_fs_node true
      (fun _ => default_fsync_cu) 0 (by decide)).2.1 ⟨rfl, rfl⟩).1

/-- C6: on every successful generation each CU's final aggregate has at most
`__FSYNC_N_LVL__` (= 4) set bits — the engine appends at most one bit per
recursion level starting from a zero aggregate, and the two-CU path writes a
single power of two. -/
theorem C6_bounded_aggregate (cus : List FsyncCu) (dd : FsyncDir)
    (hsucc : (fsync_gen_reqs cus dd).1 = true) (i : Nat) :
    popCount (((fsync_gen_reqs cus dd).2.getD i
      default_fsync_cu).fsync_req.fs_req_aggr) ≤ __FSYNC_N_LVL__ := by
  rcases Nat.lt_or_ge cus.length 2 with hsmall | h2
  · rw [fsync_gen_reqs_small cus dd hsmall] at hsucc
    simp at hsucc
  · rcases Nat.lt_or_ge 2 cus.length with hmany | hle2
    · rw [fsync_gen_reqs_many cus dd hmany]
      by_cases hi : i < cus.length
      · rw [fsync_copy_reqs_getD (fsync_init_reqs cus) _ 0 i
          (by rw [fsync_init_reqs_length]; exact hi)]
        have hpc := fsync_partition_subtree_popcount (2 * __FSYNC_DEFAULT_TH__ + 2)
          (fun j => (fsync_init_reqs cus).getD j default_fsync_cu)
          (List.range cus.length) dd __FSYNC_DEFAULT_TH__ FsyncNode.hv_fs_node i
          (by rw [List.mem_range]; exact hi)
        have hz : popCount (((fun j => (fsync_init_reqs cus).getD j default_fsync_cu)
            i).fsync_req.fs_req_aggr) = 0 := by
          dsimp only
          rw [fsync_init_reqs_getD, fsync_init_req_req]
          rfl
        have hbound : fsync_lvl_bound (2 * __FSYNC_DEFAULT_TH__ + 2)
            __FSYNC_DEFAULT_TH__ FsyncNode.hv_fs_node = __FSYNC_N_LVL__ := by decide
        show popCount (((fsync_partition_subtree _ _ _ _ _ _).2
          (0 + i)).fsync_req.fs_req_aggr) ≤ __FSYNC_N_LVL__
        rw [Nat.zero_add]
        omega
      · rw [fsync_copy_reqs_getD_ge (fsync_init_reqs cus) _ 0 i
          (by rw [fsync_init_reqs_length]; omega)]
        decide
    · have hlen2 : cus.length = 2 := by omega
      obtain ⟨a, b, rfl⟩ := List.length_eq_two.1 hlen2
      rw [fsync_gen_reqs_pair] at hsucc ⊢
      rcases Nat.lt_or_ge 1 (abs_diff a.x_pos b.x_pos + abs_diff a.y_pos b.y_pos)
        with hfar | hnear
      · rw [fsync_gen_two_far (fsync_init_req a) (fsync_init_req b) dd hfar]
          at hsucc ⊢
        by_cases h1 : 1 < fsync_hops_loop
            (__FSYNC_N_CU_X__ / 2 + __FSYNC_N_CU_Y__ / 2 + 1)
            (fsync_init_req a).x_pos (fsync_init_req b).x_pos (__FSYNC_N_CU_X__ / 2)
            (fsync_init_req a).y_pos (fsync_init_req b).y_pos (__FSYNC_N_CU_Y__ / 2)
            __FSYNC_N_LVL__
        · rw [if_pos h1]
          split
          all_goals
            match i with
            | 0 =>
              dsimp only [List.getD_cons_zero]
              rw [popCount_one_shift]
              decide
            | 1 =>
              dsimp only [List.getD_cons_succ, List.getD_cons_zero]
              rw [popCount_one_shift]
              decide
            | (n + 2) =>
              dsimp only [List.getD_cons_succ, List.getD_nil]
              decide
        · rw [if_neg h1] at hsucc
          simp at hsucc
      · have hcase : (abs_diff a.x_pos b.x_pos + abs_diff a.y_pos b.y_pos = 0) ∨
            (abs_diff a.x_pos b.x_pos = 1 ∧ abs_diff a.y_pos b.y_pos = 0) ∨
            (abs_diff a.x_pos b.x_pos = 0 ∧ abs_diff a.y_pos b.y_pos = 1) := by omega
        rcases hcase with h0 | ⟨h1, hzero⟩ | ⟨hzero, h1⟩
        · rw [fsync_gen_two_dist0 (fsync_init_req a) (fsync_init_req b) dd h0]
            at hsucc
          simp at hsucc
        · rw [fsync_gen_two_dist1_x (fsync_init_req a) (fsync_init_req b) dd h1 hzero]
          match i with
          | 0 =>
            show popCount 1 ≤ __FSYNC_N_LVL__
            decide
          | 1 =>
            show popCount 1 ≤ __FSYNC_N_LVL__
            decide
          | (n + 2) =>
            show popCount default_fsync_cu.fsync_req.fs_req_aggr ≤ __FSYNC_N_LVL__
            decide
        · rw [fsync_gen_two_dist1_y (fsync_init_req a) (fsync_init_req b) dd hzero h1]
          match i with
          | 0 =>
            show popCount 1 ≤ __FSYNC_N_LVL__
            decide
          | 1 =>
            show popCount 1 ≤ __FSYNC_N_LVL__
            decide
          | (n + 2) =>
            show popCount default_fsync_cu.fsync_req.fs_req_aggr ≤ __FSYNC_N_LVL__
            decide

/-- Witness for C6 on a successful 3-CU run. -/
theorem C6_bounded_aggregate_witness :
    popCount (((fsync_gen_reqs [⟨0, 0, 0, default_req⟩, ⟨1, 3, 3, default_req⟩,
        ⟨2, 3, 0, default_req⟩] FsyncDir.h_fs_dir).2.getD 0
        default_fsync_cu).fsync_req.fs_req_aggr) ≤ __FSYNC_N_LVL__ :=
  C6_bounded_aggregate [⟨0, 0, 0, default_req⟩, ⟨1, 3, 3, default_req⟩,
    ⟨2, 3, 0, default_req⟩] FsyncDir.h_fs_dir (by decide) 0

/-- C10: regardless of the outcome, `fsync_gen_reqs` keeps the caller's array
length and leaves every CU's `cu_id`, `x_pos` and `y_pos` unchanged — only
the request fields may be written, because coordinate renormalization happens
only on the internal clone (N ≥ 3 path) or on local copies (two-CU path). -/
theorem C10_frame (cus : List FsyncCu) (dd : FsyncDir) :
    (fsync_gen_reqs cus dd).2.length = cus.length ∧
    ∀ i, i < cus.length →
      ((fsync_gen_reqs cus dd).2.getD i default_fsync_cu).cu_id =
        (cus.getD i default_fsync_cu).cu_id ∧
      ((fsync_gen_reqs cus dd).2.getD i default_fsync_cu).x_pos =
        (cus.getD i default_fsync_cu).x_pos ∧
      ((fsync_gen_reqs cus dd).2.getD i default_fsync_cu).y_pos =
        (cus.getD i default_fsync_cu).y_pos := by
  rcases Nat.lt_or_ge cus.length 2 with hsmall | h2
  · rw [fsync_gen_reqs_small cus dd hsmall]
    refine ⟨fsync_init_reqs_length cus, ?_⟩
    intro i _
    show ((fsync_init_reqs cus).getD i default_fsync_cu).cu_id = _ ∧
      ((fsync_init_reqs cus).getD i default_fsync_cu).x_pos = _ ∧
      ((fsync_init_reqs cus).getD i default_fsync_cu).y_pos = _
    rw [fsync_init_reqs_getD]
    exact ⟨rfl, rfl, rfl⟩
  · rcases Nat.lt_or_ge 2 cus.length with hmany | hle2
    · rw [fsync_gen_reqs_many cus dd hmany]
      refine ⟨by rw [fsync_copy_reqs_length, fsync_init_reqs_length], ?_⟩
      intro i hi
      rw [fsync_copy_reqs_getD (fsync_init_reqs cus) _ 0 i
        (by rw [fsync_init_reqs_length]; exact hi)]
      show ((fsync_init_reqs cus).getD i default_fsync_cu).cu_id = _ ∧
        ((fsync_init_reqs cus).getD i default_fsync_cu).x_pos = _ ∧
        ((fsync_init_reqs cus).getD i default_fsync_cu).y_pos = _
      rw [fsync_init_reqs_getD]
      exact ⟨rfl, rfl, rfl⟩
    · have hlen2 : cus.length = 2 := by omega
      obtain ⟨a, b, rfl⟩ := List.length_eq_two.1 hlen2
      rw [fsync_gen_reqs_pair]
      obtain ⟨⟨hc1, hx1, hy1⟩, hc2, hx2, hy2⟩ :=
        fsync_gen_two_frame (fsync_init_req a) (fsync_init_req b) dd
      refine ⟨rfl, ?_⟩
      intro i hi
      match i with
      | 0 => exact ⟨hc1, hx1, hy1⟩
      | 1 => exact ⟨hc2, hx2, hy2⟩

/-- Witness for C10 on a 3-CU input at index 0. -/
theorem C10_frame_witness :
    ((fsync_gen_reqs [⟨7, 1, 2, default_req⟩, ⟨8, 0, 0, default_req⟩,
        ⟨9, 3, 1, default_req⟩] FsyncDir.v_fs_dir).2.getD 0 default_fsync_cu).cu_id =
      (([⟨7, 1, 2, default_req⟩, ⟨8, 0, 0, default_req⟩,
        ⟨9, 3, 1, default_req⟩] : List FsyncCu).getD 0 default_fsync_cu).cu_id :=
  ((C10_frame [⟨7, 1, 2, default_req⟩, ⟨8, 0, 0, default_req⟩,
    ⟨9, 3, 1, default_req⟩] FsyncDir.v_fs_dir).2 0 (by decide)).1

end FractalSync
